import Mathlib

/-!
Verification of the content-pipeline backend against its design document.

The Python sources are shallowly embedded: dictionaries parsed from provider
JSON become the inductive type `JValue`; CPython coercions (`or`-defaulting,
`str.strip`, `int(...)`) are reproduced on that type; fallible code returns
`Except PyErr`; datetimes are microsecond counts (`Int`), with a timezone given
by its wall-clock/instant offset functions; celery tasks become pure functions
from their database reads to the writes they commit.
-/

/-- Python exception values, carrying the text that `str(e)` would produce. -/
inductive PyErr where
  | valueError (msg : String)
  | typeError (msg : String)
  | attributeError (msg : String)
  | invalidToken
deriving DecidableEq, Repr

/-- `str(e)` for an exception — the payload stored in error dicts. -/
def PyErr.message : PyErr → String
  | .valueError m => m
  | .typeError m => m
  | .attributeError m => m
  | .invalidToken => ""

/-- JSON-shaped Python values: the domain of payloads handed to the scene
validator after `json.loads` (floats do not occur in the validated fields and
are not modelled). -/
inductive JValue where
  | null
  | bool (b : Bool)
  | int (n : Int)
  | str (s : String)
  | list (xs : List JValue)
  | obj (kvs : List (String × JValue))

/-- Python truthiness of a `JValue` (`bool(x)`). -/
def JValue.truthy : JValue → Bool
  | .null => false
  | .bool b => b
  | .int n => n != 0
  | .str s => s ≠ ""
  | .list xs => !xs.isEmpty
  | .obj kvs => !kvs.isEmpty

/-- `dict.get(key)`: first binding for `key`, `None` (here `none`) if absent. -/
def JValue.get : List (String × JValue) → String → Option JValue
  | [], _ => none
  | (k, v) :: rest, key => if k = key then some v else JValue.get rest key

/-- ASCII fragment of the whitespace set stripped by `str.strip()` and by
`int(str)`. -/
def pyWs (c : Char) : Bool :=
  c = ' ' || c = '\t' || c = '\n' || c = '\r' || c = '\x0b' || c = '\x0c'

/-- `str.strip()` (ASCII whitespace fragment; exotic Unicode spaces are not
modelled). -/
def pyStrip (s : String) : String :=
  String.mk (((s.toList.dropWhile pyWs).reverse.dropWhile pyWs).reverse)

/-- Equality of `Except` results is decidable componentwise (used to evaluate
the embedding at concrete inputs). -/
instance {e a : Type} [DecidableEq e] [DecidableEq a] : DecidableEq (Except e a) := by
  intro x y
  cases x <;> cases y
  case error.error u v =>
    exact if h : u = v then .isTrue (by rw [h]) else .isFalse (by intro hh; cases hh; exact h rfl)
  case error.ok u v => exact .isFalse (by intro hh; cases hh)
  case ok.error u v => exact .isFalse (by intro hh; cases hh)
  case ok.ok u v =>
    exact if h : u = v then .isTrue (by rw [h]) else .isFalse (by intro hh; cases hh; exact h rfl)

/-- Python slicing `s[:n]` — by code points, hence on the character list. -/
def pyTake (s : String) (n : Nat) : String := String.mk (s.toList.take n)

/-- Python slicing `s[n:]`. -/
def pyDrop (s : String) (n : Nat) : String := String.mk (s.toList.drop n)

/-- `str.startswith(p)`. -/
def pyStartsWith (s p : String) : Bool := p.toList.isPrefixOf s.toList

/-- `str.lower()` (ASCII fragment, the platform names are ASCII). -/
def pyLower (s : String) : String := String.mk (s.toList.map Char.toLower)

/-- `str.split(sep)` for the one-character separator `:` — structural, unlike
`String.splitOn`, so concrete schedules evaluate. `"".split(":") = [""]`. -/
def splitColonAux : List Char → List Char → List (List Char)
  | [], cur => [cur.reverse]
  | ':' :: rest, cur => cur.reverse :: splitColonAux rest []
  | c :: rest, cur => splitColonAux rest (c :: cur)

/-- `s.split(":")`. -/
def pySplitColon (s : String) : List String :=
  (splitColonAux s.toList []).map String.mk

/-- Digit run acceptable to CPython `int(str)` after sign removal: nonempty
digits with single underscores strictly between digits. -/
def pyUDigits : List Char → Bool
  | [] => false
  | [c] => c.isDigit
  | c :: '_' :: rest => c.isDigit && pyUDigits rest
  | c :: rest => c.isDigit && pyUDigits rest

/-- Numeric value of a digit-and-underscore run. -/
def pyDigitsVal (cs : List Char) : Nat :=
  (cs.filter Char.isDigit).foldl (fun a c => a * 10 + (c.toNat - 48)) 0

/-- CPython `int(str)` on the ASCII fragment: strip whitespace, optional sign,
then a digit run; `none` models the `ValueError` raise. -/
def pyIntOfStr (s : String) : Option Int :=
  let cs := ((s.toList.dropWhile pyWs).reverse.dropWhile pyWs).reverse
  match cs with
  | '+' :: rest => if pyUDigits rest then some (pyDigitsVal rest) else none
  | '-' :: rest => if pyUDigits rest then some (-(pyDigitsVal rest : Int)) else none
  | rest => if pyUDigits rest then some (pyDigitsVal rest) else none

/-- `int(x)` on a `JValue` (no floats in the modelled domain). -/
def pyIntOf : JValue → Except PyErr Int
  | .int n => .ok n
  | .bool b => .ok (if b then 1 else 0)
  | .str s =>
    match pyIntOfStr s with
    | some n => .ok n
    | none => .error (.valueError ("invalid literal for int() with base 10: " ++ s))
  | .null => .error (.typeError "int() argument must be a string or a number, not NoneType")
  | .list _ => .error (.typeError "int() argument must be a string or a number, not list")
  | .obj _ => .error (.typeError "int() argument must be a string or a number, not dict")

/-- `(v or "").strip()` where `v` is a dictionary lookup result (`none` when the
key is absent). A falsy value collapses to `""`; a truthy non-string raises
`AttributeError` at `.strip()`. -/
def pyOrEmptyStrip (v : Option JValue) : Except PyErr String :=
  let w := v.getD JValue.null
  if w.truthy then
    match w with
    | .str s => .ok (pyStrip s)
    | _ => .error (.attributeError "object has no attribute strip")
  else .ok ""

/-- One validated scene, mirroring `SceneSpec` of app/schemas/script_scenes.py. -/
structure SceneSpec where
  scene : Int
  text : String
  visual_description : String
deriving DecidableEq, Repr

/-- Body of the `for i, item in enumerate(raw)` loop of `validate_scenes`
(app/schemas/script_scenes.py) for one element. -/
def validateSceneItem (i : Nat) (item : JValue) : Except PyErr SceneSpec :=
  match item with
  | .obj kvs => do
    let text ← pyOrEmptyStrip (JValue.get kvs "text")
    if text = "" then
      .error (.valueError ("scene " ++ toString i ++ " missing text"))
    else do
      let vis0 ← pyOrEmptyStrip (JValue.get kvs "visual_description")
      let vis := if vis0 = "" then pyTake text 500 else vis0
      let sc ← pyIntOf ((JValue.get kvs "scene").getD (JValue.int (i + 1)))
      .ok ⟨sc, text, vis⟩
  | _ => .error (.valueError ("scene " ++ toString i ++ " must be an object"))

/-- The enumerate loop of `validate_scenes`, starting at index `i`. -/
def validateScenesGo (i : Nat) : List JValue → Except PyErr (List SceneSpec)
  | [] => .ok []
  | item :: rest => do
    let s ← validateSceneItem i item
    let tail ← validateScenesGo (i + 1) rest
    .ok (s :: tail)

/-- `validate_scenes` (app/schemas/script_scenes.py lines 18-34). -/
def validate_scenes (raw : JValue) : Except PyErr (List SceneSpec) :=
  match raw with
  | .list items =>
    if items.isEmpty then .error (.valueError "scenes must be a non-empty list")
    else validateScenesGo 0 items
  | _ => .error (.valueError "scenes must be a non-empty list")

/-- Post-response tail of `generate_script_scenes` (app/services/llm_service.py
lines 184-194): the provider JSON (already parsed; `data = json.loads(raw)`) is
validated and an over-long list truncated to `num_scenes_max`; any validation
exception is re-raised as a wrapped `ValueError`. `num_scenes_min` is only
interpolated into the provider prompt, so it does not appear here. -/
def generate_script_scenes (data : JValue) (num_scenes_max : Nat) :
    Except PyErr (List SceneSpec) :=
  match validate_scenes data with
  | .ok scenes =>
    .ok (if scenes.length > num_scenes_max then scenes.take num_scenes_max else scenes)
  | .error e =>
    .error (.valueError ("Failed to generate script scenes: " ++ e.message))

/-- Default of `Settings.video_scenes_min` (app/config.py). -/
def video_scenes_min : Nat := 5

/-- Default of `Settings.video_scenes_max` (app/config.py). -/
def video_scenes_max : Nat := 12

/-- Structured error payload `{step, message}` stored on `Episode.error`. -/
structure ErrInfo where
  step : String
  message : String
deriving DecidableEq, Repr

/-- The Episode columns touched by the script stage
(app/db/models/episode.py). -/
structure EpisodeS where
  status : String
  script_id : Option Nat
  error : Option ErrInfo
deriving DecidableEq, Repr

/-- A persisted Script row: `text` plus the optional `scenes` JSON payload
(app/db/models/episode.py, `Script`). -/
structure ScriptRow where
  text : String
  scenes : Option (List SceneSpec)
deriving DecidableEq, Repr

/-- `sep.join(parts)` for the separator `"\n\n"`. -/
def joinBlankLine : List String → String
  | [] => ""
  | [s] => s
  | s :: rest => s ++ "\n\n" ++ joinBlankLine rest

/-- `_build_script_from_scenes` (app/workers/tasks/script.py line 12):
join of the stripped scene texts with a blank line. -/
def buildScriptFromScenes (scenes : List SceneSpec) : String :=
  joinBlankLine (scenes.map (fun s => pyStrip s.text))

/-- Outcome of one script-stage run: the final Episode row (as committed), the
Script row persisted on success, the successive values committed to
`Episode.status`, and the exception propagated to the caller, if any. -/
structure GSOut where
  episode : Option EpisodeS
  script : Option ScriptRow
  statusWrites : List String
  raised : Option PyErr
deriving DecidableEq, Repr

/-- Shared provider step of both script-stage implementations: scene mode runs
`generate_script_scenes` on the parsed provider JSON and builds
`(script_text, scenes_payload)`; legacy mode uses the monolithic provider text.
`providerData` / `providerText` stand for the text-generation provider call
(external, network). The `scenes_payload` comprehension copies exactly the
`scene`/`text`/`visual_description` fields, i.e. it is the identity on the
validated scenes. -/
def scriptProviderStep (useScenes : Bool) (providerData : JValue)
    (providerText : Except PyErr String) (nmax : Nat) :
    Except PyErr (String × Option (List SceneSpec)) :=
  if useScenes then
    match generate_script_scenes providerData nmax with
    | .ok scenes => .ok (buildScriptFromScenes scenes, some scenes)
    | .error e => .error e
  else
    match providerText with
    | .ok t => .ok (t, none)
    | .error e => .error e

/-- The celery task `generate_script` (app/workers/tasks/script.py lines
17-89). Inputs are the database reads: the Episode row (none when the id does
not resolve) and whether the parent Series row exists. On success the task
repoints `script_id`, sets status `ready_for_review` and commits — it does NOT
touch `Episode.error`, which keeps whatever value it had. The `except` block
sets status `failed` and the `{step, message}` payload whenever the episode was
loaded, then re-raises. -/
def generateScript (ep : Option EpisodeS) (seriesFound : Bool) (useScenes : Bool)
    (providerData : JValue) (providerText : Except PyErr String) (nmax : Nat)
    (newScriptId : Nat) : GSOut :=
  match ep with
  | none => ⟨none, none, [], some (.valueError "Episode not found")⟩
  | some e =>
    if seriesFound then
      match scriptProviderStep useScenes providerData providerText nmax with
      | .ok (txt, scenesPayload) =>
        ⟨some { e with status := "ready_for_review", script_id := some newScriptId },
         some ⟨txt, scenesPayload⟩, ["generating", "ready_for_review"], none⟩
      | .error er =>
        ⟨some { e with status := "failed",
                       error := some ⟨"script_generation", er.message⟩ },
         none, ["generating", "failed"], some er⟩
    else
      -- series lookup fails before the `generating` write; the handler still
      -- marks the loaded episode failed and re-raises
      ⟨some { e with status := "failed",
                     error := some ⟨"script_generation", "Series not found"⟩ },
       none, ["failed"], some (.valueError "Series not found")⟩

/-- The synchronous service `run_script_generation`
(app/services/generation_service.py lines 16-84). Unlike the task it has no
`try/except`: failures propagate with whatever was committed so far, and the
success path additionally clears `Episode.error` (`episode.error = None`). -/
def runScriptGeneration (ep : Option EpisodeS) (seriesFound : Bool)
    (useScenes : Bool) (providerData : JValue) (providerText : Except PyErr String)
    (nmax : Nat) (newScriptId : Nat) : GSOut :=
  match ep with
  | none => ⟨none, none, [], some (.valueError "Episode not found")⟩
  | some e =>
    if seriesFound then
      match scriptProviderStep useScenes providerData providerText nmax with
      | .ok (txt, scenesPayload) =>
        ⟨some { e with status := "ready_for_review", script_id := some newScriptId,
                       error := none },
         some ⟨txt, scenesPayload⟩, ["generating", "ready_for_review"], none⟩
      | .error er =>
        ⟨some { e with status := "generating" }, none, ["generating"], some er⟩
    else
      ⟨some e, none, [], some (.valueError "Series not found")⟩

/-- The `generate-script` API endpoint guard
(app/api/v1/episodes.py lines 100-114): a 404 when the episode does not
resolve, a 400 — without invoking `run_script_generation` — unless the status
is `scheduled` or `failed`, otherwise the synchronous service runs. -/
def triggerGenerateScript (ep : Option EpisodeS) (seriesFound : Bool)
    (useScenes : Bool) (providerData : JValue) (providerText : Except PyErr String)
    (nmax : Nat) (newScriptId : Nat) : Except Nat GSOut :=
  match ep with
  | none => .error 404
  | some e =>
    if e.status = "scheduled" ∨ e.status = "failed" then
      .ok (runScriptGeneration (some e) seriesFound useScenes providerData
            providerText nmax newScriptId)
    else .error 400

/-- The storage settings consulted by `get_download_url`
(app/services/storage_service.py); empty string means unset. -/
structure StorageSettings where
  aws_access_key_id : String
  aws_secret_access_key : String
  s3_endpoint_url : String
  s3_bucket : String
  s3_region : String

/-- `str.rstrip(slash)` for the single character `/`. -/
def rstripSlash (s : String) : String :=
  String.mk ((s.toList.reverse.dropWhile (fun c => c = '/')).reverse)

/-- `get_download_url` (app/services/storage_service.py lines 121-142):
resolves a stored object URL to a fetchable one. `presign` abstracts the boto3
`generate_presigned_url` call (local signature computation, non-raising),
applied to the object key. -/
def get_download_url (st : StorageSettings) (presign : String → String)
    (url : String) : String :=
  if st.aws_access_key_id = "" ∨ st.aws_secret_access_key = "" then url
  else if st.s3_endpoint_url ≠ "" then
    let base := rstripSlash st.s3_endpoint_url ++ "/" ++ st.s3_bucket ++ "/"
    if pyStartsWith url base then presign (pyDrop url base.toList.length) else url
  else
    let regional := "https://" ++ st.s3_bucket ++ ".s3." ++ st.s3_region ++ ".amazonaws.com/"
    if pyStartsWith url regional then presign (pyDrop url regional.toList.length) else url

/-- `decrypt_token` (app/core/token_encryption.py lines 40-43): empty input
short-circuits to `""`; otherwise the Fernet decryption — abstracted as the
oracle `fernet`, `none` standing for the `cryptography.fernet.InvalidToken`
raise on an undecryptable ciphertext — runs and may raise. -/
def decrypt_token (fernet : String → Option String) (encrypted : String) :
    Except PyErr String :=
  if encrypted = "" then .ok ""
  else
    match fernet encrypted with
    | some plain => .ok plain
    | none => .error .invalidToken

/-- Result dict of a platform adapter: every adapter in
app/services/platform_publish.py returns
`{"platform_post_id": ..., "status": "posted"}` on success (both keys always
present, so `.get` with defaults reads these fields). -/
structure AdapterOut where
  platform_post_id : Option String
  status : String
deriving DecidableEq, Repr

/-- The four platform adapters `_tiktok_publish`, `_instagram_publish`,
`_youtube_publish`, `_facebook_publish`, abstracted as oracles over
(token, video_url, caption-ish, ...) since their bodies are wire-level HTTP;
an `Except.error` models any exception they raise (HTTP non-2xx etc.). -/
structure Adapters where
  tiktok : String → String → String → String → Except PyErr AdapterOut
  instagram : String → String → String → Except PyErr AdapterOut
  youtube : String → String → String → String → Except PyErr AdapterOut
  facebook : String → String → String → Except PyErr AdapterOut

/-- `caption or "Video"` for strings. -/
def captionOr (caption dflt : String) : String :=
  if caption = "" then dflt else caption

/-- The adapter dispatch inside the `try` block of `publish_to_platform`
(app/services/platform_publish.py lines 202-212): `none` when the platform
string matches no branch (the unsupported case). -/
def adapterDispatch (ad : Adapters) (platform tok video_url caption post_id : String) :
    Option (Except PyErr AdapterOut) :=
  if platform = "tiktok" then some (ad.tiktok tok video_url (captionOr caption "Video") post_id)
  else if platform = "instagram" then some (ad.instagram tok video_url caption)
  else if platform = "youtube" then
    some (ad.youtube tok video_url (captionOr caption "Video") caption)
  else if platform = "facebook" then some (ad.facebook tok video_url caption)
  else none

/-- `publish_to_platform` (app/services/platform_publish.py lines 184-217).
Returns the `(status, platform_post_id, error-message)` triple; the outer
`Except` layer is the function itself raising — note that `decrypt_token` runs
BEFORE the `try` block, so its `InvalidToken` propagates out of the function.
Error dicts `{"message": m}` are modelled by their message string. -/
def publish_to_platform (fernet : String → Option String) (st : StorageSettings)
    (presign : String → String) (ad : Adapters) (platformRaw : Option String)
    (access_token : Option String) (assetUrl : String) (caption : String)
    (post_id : String) : Except PyErr (String × Option String × Option String) := do
  let platform := pyLower (platformRaw.getD "")
  let tok ← decrypt_token fernet (access_token.getD "")
  if tok = "" then return ("failed", none, some "Missing or invalid access token")
  let video_url := if assetUrl ≠ "" then get_download_url st presign assetUrl else ""
  if video_url = "" ∨ pyStartsWith video_url "https://storage.example.com" then
    return ("failed", none, some "Video URL not available (S3 not configured or placeholder)")
  match adapterDispatch ad platform tok video_url caption post_id with
  | some (.ok out) => return (out.status, out.platform_post_id, none)
  | some (.error e) => return ("failed", none, some e.message)
  | none => return ("failed", none, some ("Unsupported platform: " ++ platform))

/-- The Episode columns read by the publish task. -/
structure EpisodeP where
  video_asset_id : Option Nat
  scriptText : Option String
deriving DecidableEq, Repr

/-- The SocialAccount columns read by the publish task. -/
structure AccountRow where
  platform : Option String
  access_token : Option String
deriving DecidableEq, Repr

/-- Outcome of one `post_to_platform` task run: the successive values committed
to `Post.status`, the final error message and platform post id, and the
exception propagated to celery (triggering its retry policy), if any. -/
structure PTOut where
  statusWrites : List String
  error : Option String
  platform_post_id : Option String
  raised : Option PyErr
deriving DecidableEq, Repr

/-- The celery task `post_to_platform` (app/workers/tasks/post.py lines 17-75).
Inputs are the database reads (`none` models a failed lookup). The task sets
`status="posting"` as its FIRST commit, before the episode or its video asset
is examined; the publish call is not wrapped, so an exception from
`publish_to_platform` leaves the Post in `posting` and propagates. -/
def post_to_platform (postFound : Bool) (episode : Option EpisodeP)
    (assetUrl : Option String) (account : Option AccountRow)
    (fernet : String → Option String) (st : StorageSettings)
    (presign : String → String) (ad : Adapters) (post_id : String) : PTOut :=
  if ¬ postFound then ⟨[], none, none, some (.valueError ("Post " ++ post_id ++ " not found"))⟩
  else
    match episode with
    | none => ⟨["posting", "failed"], some "Episode not found", none, none⟩
    | some ep =>
      match ep.video_asset_id with
      | none => ⟨["posting", "failed"], some "Episode has no video; run render first", none, none⟩
      | some _ =>
        match assetUrl with
        | none => ⟨["posting", "failed"], some "Video asset not found", none, none⟩
        | some url =>
          match account with
          | none => ⟨["posting", "failed"], some "Social account not found", none, none⟩
          | some acct =>
            let caption := ep.scriptText.getD ""
            match publish_to_platform fernet st presign ad acct.platform
                acct.access_token url caption post_id with
            | .error e => ⟨["posting"], none, none, some e⟩
            | .ok (st0, ppid, err) =>
              if st0 = "posted" then ⟨["posting", "posted"], none, ppid, none⟩
              else ⟨["posting", "failed"], err, ppid, none⟩

/-- Episode fields relevant to the Post lifecycle invariant. -/
structure EpState where
  video_asset_id : Option Nat
  preview_url : Option String
deriving DecidableEq, Repr

/-- Post fields relevant to the Post lifecycle invariant. -/
structure PoState where
  episode_id : Nat
  status : String
deriving DecidableEq, Repr

/-- The persistent state the Post-lifecycle claims quantify over: the Episode
and Post tables, keyed by id. -/
structure Sys where
  episodes : Nat → Option EpState
  posts : Nat → Option PoState

/-- Pointwise update of a table. -/
def tupdate {α : Type} (t : Nat → Option α) (k : Nat) (v : Option α) :
    Nat → Option α :=
  fun x => if x = k then v else t x

/-- The events of the system that touch `Episode.video_asset_id` or the Post
table. `renderDone` (app/workers/tasks/render.py line 234) is the only writer
of `video_asset_id` in the repository and always writes a non-null id;
`publishNow` (app/api/v1/episodes.py lines 159-230) is the only creator of Post
rows and refuses unless `video_asset_id` and `preview_url` are non-null (lines
176-180); `postRunStart` / `postRunFinish` are the status commits of the
`post_to_platform` task (app/workers/tasks/post.py), which never change
`episode_id`. Pipeline writes that touch neither table column (script/media
status and error updates) do not affect the modelled fields; no endpoint
deletes an Episode or nulls `video_asset_id`. -/
inductive Step : Sys → Sys → Prop where
  | createEpisode (s : Sys) (eid : Nat) (h : s.episodes eid = none) :
      Step s ⟨tupdate s.episodes eid (some ⟨none, none⟩), s.posts⟩
  | renderDone (s : Sys) (eid aid : Nat) (url : String) (e : EpState)
      (h : s.episodes eid = some e) :
      Step s ⟨tupdate s.episodes eid
               (some ⟨some aid, some url⟩), s.posts⟩
  | publishNow (s : Sys) (eid pid aid : Nat) (url : String) (e : EpState)
      (he : s.episodes eid = some e) (hv : e.video_asset_id = some aid)
      (hp : e.preview_url = some url) (hfree : s.posts pid = none) :
      Step s ⟨s.episodes, tupdate s.posts pid (some ⟨eid, "pending"⟩)⟩
  | postRunStart (s : Sys) (pid : Nat) (p : PoState) (h : s.posts pid = some p) :
      Step s ⟨s.episodes, tupdate s.posts pid (some ⟨p.episode_id, "posting"⟩)⟩
  | postRunFinish (s : Sys) (pid : Nat) (p : PoState) (st : String)
      (h : s.posts pid = some p) (hst : st = "posted" ∨ st = "failed") :
      Step s ⟨s.episodes, tupdate s.posts pid (some ⟨p.episode_id, st⟩)⟩

/-- States reachable from the empty database. -/
inductive Reachable : Sys → Prop where
  | init : Reachable ⟨fun _ => none, fun _ => none⟩
  | step {s s2 : Sys} : Reachable s → Step s s2 → Reachable s2

/-- The invariant behind the claim: every Post row references an Episode row
whose final video asset is non-null. -/
def PostsHaveVideo (s : Sys) : Prop :=
  ∀ pid p, s.posts pid = some p →
    ∃ e aid, s.episodes p.episode_id = some e ∧ e.video_asset_id = some aid

theorem step_preserves_postsHaveVideo {s s2 : Sys} (hs : PostsHaveVideo s)
    (hstep : Step s s2) : PostsHaveVideo s2 := by
  cases hstep with
  | createEpisode eid h =>
    intro pid p hp
    obtain ⟨e, aid, he, hv⟩ := hs pid p hp
    refine ⟨e, aid, ?_, hv⟩
    simp only [tupdate]
    by_cases hx : p.episode_id = eid
    · rw [hx] at he; rw [he] at h; exact absurd h (by simp)
    · simp [hx, he]
  | renderDone eid aid url e h =>
    intro pid p hp
    obtain ⟨e0, aid0, he0, hv0⟩ := hs pid p hp
    by_cases hx : p.episode_id = eid
    · exact ⟨⟨some aid, some url⟩, aid, by simp [tupdate, hx], rfl⟩
    · exact ⟨e0, aid0, by simp [tupdate, hx, he0], hv0⟩
  | publishNow eid pid aid url e he hv hp hfree =>
    intro pid0 p0 hp0
    by_cases hx : pid0 = pid
    · subst hx
      simp only [tupdate, if_pos rfl] at hp0
      cases hp0
      exact ⟨e, aid, he, hv⟩
    · simp only [tupdate, if_neg hx] at hp0
      exact hs pid0 p0 hp0
  | postRunStart pid p h =>
    intro pid0 p0 hp0
    by_cases hx : pid0 = pid
    · subst hx
      simp only [tupdate, if_pos rfl] at hp0
      cases hp0
      obtain ⟨e, aid, he, hv⟩ := hs _ _ h
      exact ⟨e, aid, he, hv⟩
    · simp only [tupdate, if_neg hx] at hp0
      exact hs pid0 p0 hp0
  | postRunFinish pid p st h hst =>
    intro pid0 p0 hp0
    by_cases hx : pid0 = pid
    · subst hx
      simp only [tupdate, if_pos rfl] at hp0
      cases hp0
      obtain ⟨e, aid, he, hv⟩ := hs _ _ h
      exact ⟨e, aid, he, hv⟩
    · simp only [tupdate, if_neg hx] at hp0
      exact hs pid0 p0 hp0

theorem reachable_postsHaveVideo {s : Sys} (h : Reachable s) : PostsHaveVideo s := by
  induction h with
  | init => intro pid p hp; exact absurd hp (by simp)
  | step _ hstep ih => exact step_preserves_postsHaveVideo ih hstep

/-- Microseconds per minute — Python datetimes are modelled as microsecond
counts since the epoch. -/
def usPerMinute : Int := 60000000

/-- Microseconds per day. -/
def usPerDay : Int := 86400000000

/-- A timezone as `zoneinfo` exposes it: the UTC offset (in microseconds) as a
function of a wall-clock time together with its PEP 495 fold bit (`offsetW`),
the offset as a function of the absolute instant (`offsetI`), and the fold bit
`astimezone` assigns to a converted instant (`foldI` — carried by the Python
objects but never read in this function, see `anchorStart`). -/
structure Tz where
  offsetW : Int → Bool → Int
  offsetI : Int → Int
  foldI : Int → Bool

/-- UTC instant of an aware wall time `(w, fold)` in `tz`:
`wall - utcoffset(wall, fold)`; this is how `astimezone(timezone.utc)`
evaluates. Comparisons are different: CPython compares aware datetimes that
SHARE a tzinfo object by naive wall clock, fold ignored. -/
def toInstant (tz : Tz) (w : Int) (f : Bool) : Int := w - tz.offsetW w f

/-- Wall-clock part of `instant.astimezone(tz)`. -/
def fromInstantW (tz : Tz) (i : Int) : Int := i + tz.offsetI i

/-- The fixed-offset timezone `timezone.utc` style zones satisfy every
coherence property; offset given in microseconds. -/
def fixedTz (off : Int) : Tz := ⟨fun _ _ => off, fun _ => off, fun _ => false⟩

/-- `dt.replace(hour=h, minute=m, second=0, microsecond=0)` on the wall value:
keep the calendar day, set the time of day. (Python validates the ranges; that
check is in `get_next_publish_slots` below.) -/
def replaceHM (w : Int) (h m : Int) : Int :=
  (Int.fdiv w usPerDay) * usPerDay + (h * 60 + m) * usPerMinute

/-- `datetime.weekday()` of a wall value: Monday is 0; 1970-01-01 was a
Thursday (3). -/
def wallWeekday (w : Int) : Int := (Int.fdiv w usPerDay + 3) % 7

/-- `int(part)` inside `_parse_time`, with the `ValueError` it can raise. -/
def parseTimePart (s : String) : Except PyErr Int :=
  match pyIntOfStr s with
  | some n => .ok n
  | none => .error (.valueError ("invalid literal for int() with base 10: " ++ s))

/-- `_parse_time` (app/services/schedule_slots.py lines 10-15): split
`(s or "09:00").strip()` on `:`; hour from the first part, minute from the
second when present (`split` never yields an empty list, so the `if parts`
guard is always taken). -/
def parse_time (s : String) : Except PyErr (Int × Int) := do
  let s0 := if s = "" then "09:00" else s
  let parts := pySplitColon (pyStrip s0)
  let h ← parseTimePart (parts.headD "")
  let m ← if parts.length > 1 then parseTimePart (parts.getD 1 "") else .ok 0
  .ok (h, m)

/-- A series schedule dict as `get_next_publish_slots` reads it. `startDate` is
the value of `_parse_start_date` — an aware datetime represented by its UTC
instant, `none` when absent or unparseable (dateutil string parsing is
environment and not modelled); the `timezone` name is resolved externally to
the `Tz` argument (an unknown name falls back to UTC). `customDays` is taken
well-typed (a JSON int list or absent). -/
structure ScheduleDict where
  frequency : Option String
  publishTime : Option String
  startDate : Option Int
  customDays : Option (List Int)

/-- Frequency acceptance test of the loop body for the candidate wall `cw`
(the `candidate < now` skip is separate): `daily` accepts, `weekly` filters by
`customDays` when that set is nonempty, any other frequency accepts. -/
def freqAccept (frequency : String) (customDays : Option (List Int))
    (cw : Int) : Bool :=
  if frequency = "daily" then true
  else if frequency = "weekly" then
    match customDays with
    | some ds => if ds.length > 0 then decide (wallWeekday cw ∈ ds) else true
    | none => true
  else true

/-- The `while len(slots) < count and day_offset < max_days` loop of
`get_next_publish_slots`, one fuel per remaining day. `base` is
`start.replace(hour, minute, 0, 0)` as a wall value and `nowW` the wall value
of `now.astimezone(tz)`. The skip test `candidate < now.astimezone(tz)`
compares two datetimes sharing the tzinfo object, which CPython compares by
naive wall clock — so it is a wall comparison here. Every `candidate` carries
fold 0, because `start.replace(...) + timedelta(days=day_offset)` resets fold
per PEP 495; `candidate.astimezone(timezone.utc)` therefore resolves the wall
time at fold 0 — in a DST fall-back hour that means the earlier (pre-gap)
offset. -/
def slotsLoop (tz : Tz) (nowW base : Int) (frequency : String)
    (customDays : Option (List Int)) (count : Nat) :
    Nat → Nat → List Int → List Int
  | 0, _, slots => slots
  | fuel + 1, day_offset, slots =>
    if slots.length < count then
      let candidate := base + day_offset * usPerDay
      if candidate < nowW then
        slotsLoop tz nowW base frequency customDays count fuel (day_offset + 1) slots
      else if freqAccept frequency customDays candidate then
        slotsLoop tz nowW base frequency customDays count fuel (day_offset + 1)
          (slots ++ [toInstant tz candidate false])
      else
        slotsLoop tz nowW base frequency customDays count fuel (day_offset + 1) slots
    else slots

/-- The anchor: `start = startDate.astimezone(tz) if start_date ... else
now.astimezone(tz)`, then `if start < now.astimezone(tz): start =
now.astimezone(tz)`. Both operands share the tzinfo object, so the comparison
is by naive wall clock, fold ignored. The fold bit returned is the one the
Python object carries from `astimezone`; nothing downstream reads it, because
candidate construction resets fold to 0. -/
def anchorStart (tz : Tz) (now : Int) (startDate : Option Int) : Int × Bool :=
  let nowPair := (fromInstantW tz now, tz.foldI now)
  let sPair :=
    match startDate with
    | some sd => (fromInstantW tz sd, tz.foldI sd)
    | none => nowPair
  if sPair.1 < nowPair.1 then nowPair else sPair

/-- `get_next_publish_slots` (app/services/schedule_slots.py lines 38-81) with
the current time injected. The `Except` layer carries the `ValueError` raises
of `int()` in `_parse_time` and of `start.replace(...)` on an out-of-range
hour/minute; `replace` runs inside the loop body, so with `count = 0` the loop
body never executes and nothing is raised. -/
def get_next_publish_slots (tz : Tz) (now : Int) (sched : ScheduleDict)
    (count : Nat) : Except PyErr (List Int) := do
  let frequency := sched.frequency.getD "daily"
  let hm ← parse_time (sched.publishTime.getD "09:00")
  let start := anchorStart tz now sched.startDate
  let nowW := fromInstantW tz now
  if count = 0 then .ok []
  else if 0 ≤ hm.1 ∧ hm.1 ≤ 23 ∧ 0 ≤ hm.2 ∧ hm.2 ≤ 59 then
    let base := replaceHM start.1 hm.1 hm.2
    .ok ((slotsLoop tz nowW base frequency sched.customDays count
          365 0 []).take count)
  else .error (.valueError "hour must be in 0..23")

/-- Wall value of the candidate examined on day `d`: `base + d` days. -/
def candW (base : Int) (d : Nat) : Int := base + d * usPerDay

/-- UTC instant of the candidate examined on day `d` — always at fold 0,
which is what timedelta arithmetic leaves on the candidate. -/
def candInstant (tz : Tz) (base : Int) (d : Nat) : Int :=
  toInstant tz (candW base d) false

/-- Day `d` yields a slot: the candidate wall is not before the wall of `now`
(the code's naive same-tzinfo comparison) and the frequency rule passes. -/
def acceptDay (nowW base : Int) (frequency : String)
    (customDays : Option (List Int)) (d : Nat) : Bool :=
  !(decide (candW base d < nowW)) && freqAccept frequency customDays (candW base d)

theorem slotsLoop_eq (tz : Tz) (nowW base : Int) (frequency : String)
    (customDays : Option (List Int)) (count : Nat) :
    ∀ (fuel d : Nat) (acc : List Int),
      slotsLoop tz nowW base frequency customDays count fuel d acc
        = acc ++ (((List.range' d fuel).filter
              (acceptDay nowW base frequency customDays)).map
              (candInstant tz base)).take (count - acc.length) := by
  intro fuel
  induction fuel with
  | zero => intro d acc; simp [slotsLoop]
  | succ n ih =>
    intro d acc
    rw [List.range'_succ, slotsLoop]
    by_cases hlen : acc.length < count
    · rw [if_pos hlen]
      by_cases hskip : base + d * usPerDay < nowW
      · have hacc : acceptDay nowW base frequency customDays d = false := by
          simp [acceptDay, candW, hskip]
        rw [if_pos hskip, ih]
        simp [List.filter_cons, hacc]
      · rw [if_neg hskip]
        by_cases hfa : freqAccept frequency customDays (base + d * usPerDay) = true
        · have hacc : acceptDay nowW base frequency customDays d = true := by
            simp [acceptDay, candW, hskip, hfa]
          rw [if_pos hfa, ih]
          have hfilter : (d :: List.range' (d + 1) n).filter
                (acceptDay nowW base frequency customDays)
              = d :: (List.range' (d + 1) n).filter
                (acceptDay nowW base frequency customDays) := by
            simp [List.filter_cons, hacc]
          rw [hfilter, List.map_cons]
          obtain ⟨k, hk⟩ : ∃ k, count - acc.length = k + 1 :=
            ⟨count - acc.length - 1, by omega⟩
          rw [hk, List.take_succ_cons]
          have hX : count - (acc ++ [toInstant tz (base + (d : Int) * usPerDay) false]).length
              = k := by
            simp only [List.length_append, List.length_cons, List.length_nil]
            omega
          rw [hX]
          simp [candInstant, candW, List.append_assoc]
        · have hacc : acceptDay nowW base frequency customDays d = false := by
            simp [acceptDay, candW, hskip, hfa]
          rw [if_neg hfa, ih]
          simp [List.filter_cons, hacc]
    · rw [if_neg hlen]
      have h0 : count - acc.length = 0 := by omega
      rw [h0]
      simp

/-- Closed form of `get_next_publish_slots` on the non-raising domain: the
accepted days of the 365-day horizon, in order, as UTC instants, cut to
`count`. -/
theorem get_next_publish_slots_eq (tz : Tz) (now : Int) (sched : ScheduleDict)
    (count : Nat) (h m : Int)
    (hparse : parse_time (sched.publishTime.getD "09:00") = .ok (h, m))
    (hh0 : 0 ≤ h) (hh1 : h ≤ 23) (hm0 : 0 ≤ m) (hm1 : m ≤ 59)
    (hcount : count ≠ 0) :
    get_next_publish_slots tz now sched count
      = .ok ((((List.range 365).filter
            (acceptDay (fromInstantW tz now)
              (replaceHM (anchorStart tz now sched.startDate).1 h m)
              (sched.frequency.getD "daily") sched.customDays)).map
            (candInstant tz
              (replaceHM (anchorStart tz now sched.startDate).1 h m))).take count) := by
  rw [get_next_publish_slots, hparse]
  simp only [Bind.bind, Except.bind]
  rw [if_neg hcount, if_pos ⟨hh0, hh1, hm0, hm1⟩]
  rw [slotsLoop_eq, List.range_eq_range']
  simp [List.take_take]

/-- Offsets whose day-to-day change stays below 24 hours (every IANA zone's
DST pattern) make the daily candidate instants strictly increasing. -/
theorem candInstant_strictMono (tz : Tz) (base : Int)
    (hΔ : ∀ d : Nat, tz.offsetW (candW base (d + 1)) false
        - tz.offsetW (candW base d) false < usPerDay) :
    StrictMono (candInstant tz base) := by
  apply strictMono_nat_of_lt_succ
  intro n
  have h := hΔ n
  simp only [candInstant, toInstant, candW] at *
  push_cast at *
  linarith

theorem slots_sorted (P : Nat → Bool) (c : Nat → Int) (count n : Nat)
    (hmono : StrictMono c) :
    List.Sorted (· < ·) ((((List.range n).filter P).map c).take count) := by
  apply List.Pairwise.sublist (List.take_sublist _ _)
  apply List.Pairwise.map
  · intro a b hab
    exact hmono hab
  · exact (List.pairwise_lt_range n).filter P

theorem slots_mem_accepted {P : Nat → Bool} {c : Nat → Int} {count n : Nat}
    {s : Int} (hs : s ∈ (((List.range n).filter P).map c).take count) :
    ∃ d, d < n ∧ P d = true ∧ s = c d := by
  have h1 := List.mem_of_mem_take hs
  obtain ⟨d, hd, rfl⟩ := List.mem_map.mp h1
  have h2 := List.mem_filter.mp hd
  exact ⟨d, List.mem_range.mp h2.1, h2.2, rfl⟩

/-- An accepted day is one whose candidate wall is not before the wall of
`now` in the schedule timezone. -/
theorem acceptDay_wall_ge {nowW base : Int} {frequency : String}
    {customDays : Option (List Int)} {d : Nat}
    (h : acceptDay nowW base frequency customDays d = true) :
    nowW ≤ candW base d := by
  simp only [acceptDay, Bool.and_eq_true, Bool.not_eq_true'] at h
  have := h.1
  simp only [decide_eq_false_iff_not, not_lt] at this
  exact this

/-- A filter by an upward-closed predicate keeps a final segment of `range`. -/
theorem filter_range_upclosed (P : Nat → Bool)
    (hP : ∀ d, P d = true → P (d + 1) = true) (n : Nat) :
    (List.range n).filter P
      = List.range' (n - ((List.range n).filter P).length)
          ((List.range n).filter P).length := by
  induction n with
  | zero => simp
  | succ n ih =>
    have hclimb : ∀ a b, a ≤ b → P a = true → P b = true := by
      intro a b hab ha
      induction b, hab using Nat.le_induction with
      | base => exact ha
      | succ b hb ihb => exact hP b ihb
    rw [List.range_succ, List.filter_append]
    by_cases hPn : P n = true
    · have hfn : [n].filter P = [n] := by simp [hPn]
      rw [hfn]
      have hk : ((List.range n).filter P).length ≤ n := by
        calc ((List.range n).filter P).length ≤ (List.range n).length :=
          List.length_filter_le _ _
        _ = n := List.length_range n
      rw [ih]
      have hlen : (List.range' (n - ((List.range n).filter P).length)
          ((List.range n).filter P).length ++ [n]).length
          = ((List.range n).filter P).length + 1 := by
        simp
      rw [hlen]
      have harith : n + 1 - (((List.range n).filter P).length + 1)
          = n - ((List.range n).filter P).length := by omega
      rw [harith, List.range'_1_concat]
      have : n - ((List.range n).filter P).length + ((List.range n).filter P).length
          = n := by omega
      rw [this]
    · have hfn : [n].filter P = [] := by
        simp [List.filter_cons, hPn]
      have hnil : (List.range n).filter P = [] := by
        by_contra hne
        obtain ⟨a, ha⟩ := List.exists_mem_of_ne_nil _ hne
        have h2 := List.mem_filter.mp ha
        exact hPn (hclimb a n (Nat.le_of_lt (List.mem_range.mp h2.1)) h2.2)
      rw [hfn, hnil]
      simp

/-- Wall value of the anchor: the wall-clock `max(startDate, now)` in `tz`
(the code's naive same-tzinfo comparison maximizes wall values, not
instants). -/
theorem anchorStart_wall (tz : Tz) (now : Int) (startDate : Option Int) :
    (anchorStart tz now startDate).1
      = max (fromInstantW tz (startDate.getD now)) (fromInstantW tz now) := by
  cases startDate with
  | none =>
    simp only [anchorStart, Option.getD]
    rw [if_neg (lt_irrefl _)]
    exact (max_self _).symm
  | some sd =>
    simp only [anchorStart, Option.getD]
    by_cases hlt : fromInstantW tz sd < fromInstantW tz now
    · rw [if_pos hlt]
      exact (max_eq_right (le_of_lt hlt)).symm
    · rw [if_neg hlt]
      exact (max_eq_left (not_lt.mp hlt)).symm

/-- Time-of-day (microseconds past local midnight) of every candidate wall is
the configured publish time. -/
theorem candW_timeOfDay (startW h m : Int) (d : Nat)
    (hh0 : 0 ≤ h) (hh1 : h ≤ 23) (hm0 : 0 ≤ m) (hm1 : m ≤ 59) :
    candW (replaceHM startW h m) d % usPerDay = (h * 60 + m) * usPerMinute := by
  have hr0 : 0 ≤ (h * 60 + m) * usPerMinute := by
    apply mul_nonneg
    · linarith
    · norm_num [usPerMinute]
  have hr1 : (h * 60 + m) * usPerMinute < usPerDay := by
    have hle : h * 60 + m ≤ 1439 := by linarith
    calc (h * 60 + m) * usPerMinute ≤ 1439 * usPerMinute := by
          apply mul_le_mul_of_nonneg_right hle
          norm_num [usPerMinute]
    _ < usPerDay := by norm_num [usPerMinute, usPerDay]
  have hsplit : candW (replaceHM startW h m) d
      = (h * 60 + m) * usPerMinute + (Int.fdiv startW usPerDay + d) * usPerDay := by
    simp only [candW, replaceHM]
    ring
  rw [hsplit, Int.add_mul_emod_self, Int.emod_eq_of_lt hr0 hr1]

/-- C1 (amended): for every schedule dict whose `publishTime` parses to a
valid time of day (otherwise `get_next_publish_slots` raises `ValueError`)
and positive `count`, the computation returns a chronologically ordered list
of UTC instants; every slot is an anchored candidate lying on/after `now` in
the WALL-CLOCK sense of the schedule timezone — CPython compares aware
datetimes sharing a tzinfo by naive wall clock and resets fold to 0 on
timedelta arithmetic, so in a DST fall-back fold a slot's UTC instant can
precede `now` (see `c1_counterexample`); the anchor is the wall-clock
`max(startDate, now)`; and the list has exactly `count` elements unless the
365-day horizon holds fewer accepted days, in which case all of them are
returned. Ordering assumes the timezone's offset change between consecutive
candidate days stays below 24 hours. -/
theorem c1_next_publish_slots (tz : Tz) (now : Int) (sched : ScheduleDict)
    (count : Nat) (h m : Int)
    (hparse : parse_time (sched.publishTime.getD "09:00") = .ok (h, m))
    (hh0 : 0 ≤ h) (hh1 : h ≤ 23) (hm0 : 0 ≤ m) (hm1 : m ≤ 59)
    (hcount : count ≠ 0)
    (hΔ : ∀ d : Nat,
      tz.offsetW (candW (replaceHM (anchorStart tz now sched.startDate).1 h m) (d + 1)) false
        - tz.offsetW (candW (replaceHM (anchorStart tz now sched.startDate).1 h m) d) false
        < usPerDay) :
    ∃ slots, get_next_publish_slots tz now sched count = .ok slots ∧
      List.Sorted (· < ·) slots ∧
      (∀ s ∈ slots, ∃ d, d < 365 ∧
        s = candInstant tz (replaceHM (anchorStart tz now sched.startDate).1 h m) d ∧
        fromInstantW tz now
          ≤ candW (replaceHM (anchorStart tz now sched.startDate).1 h m) d) ∧
      (slots.length = count ∨ (slots.length < count ∧
        slots.length = ((List.range 365).filter
          (acceptDay (fromInstantW tz now)
            (replaceHM (anchorStart tz now sched.startDate).1 h m)
            (sched.frequency.getD "daily") sched.customDays)).length)) ∧
      (anchorStart tz now sched.startDate).1
        = max (fromInstantW tz (sched.startDate.getD now)) (fromInstantW tz now) := by
  refine ⟨_, get_next_publish_slots_eq tz now sched count h m hparse hh0 hh1 hm0 hm1 hcount,
    ?_, ?_, ?_, ?_⟩
  · exact slots_sorted _ _ _ _ (candInstant_strictMono tz _ hΔ)
  · intro s hs
    obtain ⟨d, hd, hP, rfl⟩ := slots_mem_accepted hs
    exact ⟨d, hd, rfl, acceptDay_wall_ge hP⟩
  · rw [List.length_take, List.length_map]
    rcases le_or_lt count (((List.range 365).filter
        (acceptDay (fromInstantW tz now)
          (replaceHM (anchorStart tz now sched.startDate).1 h m)
          (sched.frequency.getD "daily") sched.customDays)).length) with hle | hlt
    · exact Or.inl (min_eq_left hle)
    · exact Or.inr ⟨by omega, by omega⟩
  · exact anchorStart_wall tz now sched.startDate

/-- A fall-back toy timezone mirroring America/New_York on its 2025-11-02
transition, with day 0 as that date: EDT (UTC−4h) before the transition, EST
(UTC−5h) after; the wall hour [01:00, 02:00) of day 0 is the repeated fold
hour (instants [06:00Z, 07:00Z)). -/
def tzFall : Tz :=
  ⟨fun w f =>
      if w < 3600000000 then -14400000000
      else if w < 7200000000 then (if f then -18000000000 else -14400000000)
      else -18000000000,
   fun i => if i < 21600000000 then -14400000000 else -18000000000,
   fun i => decide (21600000000 ≤ i ∧ i < 25200000000)⟩

/-- C1 counterexamples to the frozen claim: (i) `publishTime` "25:00" makes
`start.replace(hour=25, ...)` raise `ValueError` instead of returning a list;
(ii) in the DST fall-back fold (now = 06:15Z = local wall 01:15 EST,
publishTime 01:20) the single returned slot is 05:20Z — 55 minutes BEFORE
`now` — because the skip test compares wall clocks while the candidate
resolves to UTC at fold 0 (EDT), so the claim's "each on/after the current
time" fails on instants. -/
theorem c1_counterexample :
    (get_next_publish_slots (fixedTz 0) 0 ⟨none, some "25:00", none, none⟩ 7
        = .error (.valueError "hour must be in 0..23")) ∧
    (get_next_publish_slots tzFall 22500000000
        ⟨some "daily", some "01:20", none, none⟩ 1 = .ok [19200000000]) ∧
    (19200000000 : Int) < 22500000000 := by
  exact ⟨by decide, by decide, by decide⟩

theorem c1_witness :
    ∃ slots, get_next_publish_slots (fixedTz 0) 0 ⟨none, none, none, none⟩ 3
        = .ok slots ∧
      List.Sorted (· < ·) slots ∧
      ∀ s ∈ slots, ∃ d, d < 365 ∧
        s = candInstant (fixedTz 0)
              (replaceHM (anchorStart (fixedTz 0) 0 none).1 9 0) d ∧
        fromInstantW (fixedTz 0) 0
          ≤ candW (replaceHM (anchorStart (fixedTz 0) 0 none).1 9 0) d := by
  obtain ⟨slots, h1, h2, h3, -, -⟩ :=
    c1_next_publish_slots (fixedTz 0) 0 ⟨none, none, none, none⟩ 3 9 0
      (by decide) (by norm_num) (by norm_num) (by norm_num) (by norm_num)
      (by norm_num)
      (by intro d; norm_num [fixedTz, usPerDay])
  exact ⟨slots, h1, h2, h3⟩

/-- C6: for a `daily` schedule, consecutive output instants come from
consecutive candidate days: their wall times differ by exactly 24 hours with
the same local time of day (the configured publish time), while the UTC gap
is 24h minus the offset change between the two walls (at fold 0, the fold
every candidate carries after timedelta arithmetic) — so across a DST
transition the UTC gap differs from 24h exactly by the offset jump. Holds for
every timezone: wall-clock acceptance is upward-closed in days
unconditionally. -/
theorem c6_daily_wall_clock (tz : Tz) (now : Int) (sched : ScheduleDict)
    (count : Nat) (h m : Int)
    (hfreq : sched.frequency.getD "daily" = "daily")
    (hparse : parse_time (sched.publishTime.getD "09:00") = .ok (h, m))
    (hh0 : 0 ≤ h) (hh1 : h ≤ 23) (hm0 : 0 ≤ m) (hm1 : m ≤ 59)
    (hcount : count ≠ 0) :
    ∃ slots, get_next_publish_slots tz now sched count = .ok slots ∧
      ∀ i : Nat, i + 1 < slots.length → ∃ d : Nat,
        slots[i]? = some (candInstant tz
          (replaceHM (anchorStart tz now sched.startDate).1 h m) d) ∧
        slots[i + 1]? = some (candInstant tz
          (replaceHM (anchorStart tz now sched.startDate).1 h m) (d + 1)) ∧
        candW (replaceHM (anchorStart tz now sched.startDate).1 h m) (d + 1)
          = candW (replaceHM (anchorStart tz now sched.startDate).1 h m) d + usPerDay ∧
        candW (replaceHM (anchorStart tz now sched.startDate).1 h m) d % usPerDay
          = (h * 60 + m) * usPerMinute ∧
        candW (replaceHM (anchorStart tz now sched.startDate).1 h m) (d + 1) % usPerDay
          = (h * 60 + m) * usPerMinute ∧
        candInstant tz (replaceHM (anchorStart tz now sched.startDate).1 h m) (d + 1)
          - candInstant tz (replaceHM (anchorStart tz now sched.startDate).1 h m) d
          = usPerDay
            - (tz.offsetW (candW (replaceHM (anchorStart tz now sched.startDate).1 h m) (d + 1))
                false
              - tz.offsetW (candW (replaceHM (anchorStart tz now sched.startDate).1 h m) d)
                false) := by
  have hclosed := get_next_publish_slots_eq tz now sched count h m hparse hh0 hh1 hm0 hm1 hcount
  rw [hfreq] at hclosed
  set B := replaceHM (anchorStart tz now sched.startDate).1 h m with hB
  set P := acceptDay (fromInstantW tz now) B "daily" sched.customDays with hP
  have hfa : ∀ w, freqAccept "daily" sched.customDays w = true := by
    intro w; simp [freqAccept]
  have hday : (0 : Int) < usPerDay := by norm_num [usPerDay]
  have hup : ∀ d, P d = true → P (d + 1) = true := by
    intro d hd
    have hge : fromInstantW tz now ≤ candW B d := acceptDay_wall_ge hd
    have hwall : candW B d < candW B (d + 1) := by
      simp only [candW]
      push_cast
      linarith
    simp only [hP, acceptDay, hfa, Bool.and_true, Bool.not_eq_true',
      decide_eq_false_iff_not, not_lt]
    exact le_trans hge (le_of_lt hwall)
  have hfilter := filter_range_upclosed P hup 365
  refine ⟨_, hclosed, ?_⟩
  rw [hfilter]
  intro i hi
  rw [List.length_take, List.length_map, List.length_range'] at hi
  have hi1 : i + 1 < count := by omega
  have hik1 : i + 1 < ((List.range 365).filter P).length := by omega
  refine ⟨365 - ((List.range 365).filter P).length + i, ?_, ?_, ?_, ?_, ?_, ?_⟩
  · simp [List.getElem?_take, List.getElem?_map, List.getElem?_range',
      Nat.lt_of_succ_lt hi1, Nat.lt_of_succ_lt hik1]
  · have harith : 365 - ((List.range 365).filter P).length + (i + 1)
        = 365 - ((List.range 365).filter P).length + i + 1 := by omega
    rw [← harith]
    simp [List.getElem?_take, List.getElem?_map, List.getElem?_range', hi1, hik1]
  · simp only [candW]
    push_cast
    ring
  · rw [hB]
    exact candW_timeOfDay _ h m _ hh0 hh1 hm0 hm1
  · rw [hB]
    exact candW_timeOfDay _ h m _ hh0 hh1 hm0 hm1
  · simp only [candInstant, toInstant, candW]
    push_cast
    ring

theorem c6_witness :
    ∃ slots, get_next_publish_slots (fixedTz 0) 0 ⟨some "daily", none, none, none⟩ 2
        = .ok slots ∧
      ∀ i : Nat, i + 1 < slots.length → ∃ d : Nat,
        slots[i]? = some (candInstant (fixedTz 0)
          (replaceHM (anchorStart (fixedTz 0) 0 none).1 9 0) d) ∧
        slots[i + 1]? = some (candInstant (fixedTz 0)
          (replaceHM (anchorStart (fixedTz 0) 0 none).1 9 0) (d + 1)) := by
  obtain ⟨slots, h1, h2⟩ :=
    c6_daily_wall_clock (fixedTz 0) 0 ⟨some "daily", none, none, none⟩ 2 9 0
      (by rfl) (by decide) (by norm_num) (by norm_num) (by norm_num) (by norm_num)
      (by norm_num)
  refine ⟨slots, h1, ?_⟩
  intro i hi
  obtain ⟨d, hd1, hd2, -, -, -, -⟩ := h2 i hi
  exact ⟨d, hd1, hd2⟩


/-- The `text` field makes the validator raise (or treat as missing): any
non-string value (falsy ones collapse to blank; truthy ones break at
`.strip()`), or a string that strips to empty. -/
def textBad (v : Option JValue) : Bool :=
  match v.getD JValue.null with
  | .str s => decide (pyStrip s = "")
  | _ => true

/-- The `visual_description` field raises at `.strip()`: a truthy non-string. -/
def visBad (v : Option JValue) : Bool :=
  match v.getD JValue.null with
  | .str _ => false
  | w => w.truthy

/-- The `scene` field (when present) fails `int(...)`. -/
def sceneFieldBad (v : Option JValue) : Bool :=
  match v with
  | none => false
  | some (.int _) => false
  | some (.bool _) => false
  | some (.str s) => decide (pyIntOfStr s = none)
  | some _ => true

/-- A scene element the validator rejects. -/
def itemBad (item : JValue) : Bool :=
  match item with
  | .obj kvs =>
    textBad (JValue.get kvs "text") || visBad (JValue.get kvs "visual_description")
      || sceneFieldBad (JValue.get kvs "scene")
  | _ => true

/-- The full (amended) rejection condition of `validate_scenes`. -/
def scenesRejected (raw : JValue) : Bool :=
  match raw with
  | .list items => items.isEmpty || items.any itemBad
  | _ => true

/-- The visual description the validator assigns, given the accepted element
and its stripped narration text: the stripped provided string when it is
non-blank, else the narration truncated to 500 characters. -/
def expectedVis (item : JValue) (text : String) : String :=
  match item with
  | .obj kvs =>
    match (JValue.get kvs "visual_description").getD JValue.null with
    | .str s => if pyStrip s = "" then pyTake text 500 else pyStrip s
    | _ => pyTake text 500
  | _ => ""

theorem pyOrEmptyStrip_eq (v : Option JValue) :
    pyOrEmptyStrip v
      = match v.getD JValue.null with
        | .str s => .ok (pyStrip s)
        | w => if w.truthy then
            .error (.attributeError "object has no attribute strip")
          else .ok "" := by
  cases v with
  | none => rfl
  | some w =>
    cases w with
    | str s =>
      by_cases hs : s = ""
      · subst hs; rfl
      · simp [pyOrEmptyStrip, JValue.truthy, hs]
    | null => rfl
    | bool b => cases b <;> rfl
    | int n => rfl
    | list xs => rfl
    | obj kvs => rfl

theorem bind_error_iff {α β : Type} (x : Except PyErr α) (g : α → Except PyErr β) :
    (∃ e, (x >>= g) = .error e)
      ↔ (∃ e, x = .error e) ∨ (∃ a, x = .ok a ∧ ∃ e, g a = .error e) := by
  cases x <;> simp [Bind.bind, Except.bind]

theorem bind_ok_error_iff {α β : Type} (x : Except PyErr α) (f : α → β) :
    (∃ e, (x >>= fun a => Except.ok (f a)) = .error e) ↔ ∃ e, x = .error e := by
  cases x <;> simp [Bind.bind, Except.bind]

theorem visStep_error_iff (v : Option JValue) :
    (∃ e, pyOrEmptyStrip v = .error e) ↔ visBad v = true := by
  rw [pyOrEmptyStrip_eq]
  simp only [visBad]
  cases v.getD JValue.null with
  | str s => simp
  | null => simp [JValue.truthy]
  | bool b => cases b <;> simp [JValue.truthy]
  | int n =>
    by_cases hn : JValue.truthy (.int n) = true <;> simp [hn]
  | list xs =>
    by_cases hx : JValue.truthy (.list xs) = true <;> simp [hx]
  | obj kvs =>
    by_cases hx : JValue.truthy (.obj kvs) = true <;> simp [hx]

theorem textBad_iff (v : Option JValue) :
    textBad v = true
      ↔ ((∃ e, pyOrEmptyStrip v = .error e) ∨ pyOrEmptyStrip v = .ok "") := by
  rw [pyOrEmptyStrip_eq]
  simp only [textBad]
  cases v.getD JValue.null with
  | str s => simp
  | null => simp [JValue.truthy]
  | bool b => cases b <;> simp [JValue.truthy]
  | int n =>
    by_cases hn : JValue.truthy (.int n) = true <;> simp [hn]
  | list xs =>
    by_cases hx : JValue.truthy (.list xs) = true <;> simp [hx]
  | obj kvs =>
    by_cases hx : JValue.truthy (.obj kvs) = true <;> simp [hx]

theorem sceneStep_error_iff (i : Nat) (v : Option JValue) :
    (∃ e, pyIntOf (v.getD (JValue.int (i + 1))) = .error e)
      ↔ sceneFieldBad v = true := by
  cases v with
  | none => simp [pyIntOf, sceneFieldBad]
  | some w =>
    cases w with
    | int n => simp [pyIntOf, sceneFieldBad]
    | bool b => simp [pyIntOf, sceneFieldBad]
    | str s =>
      simp only [Option.getD, pyIntOf, sceneFieldBad]
      cases hs : pyIntOfStr s <;> simp
    | null => simp [pyIntOf, sceneFieldBad]
    | list xs => simp [pyIntOf, sceneFieldBad]
    | obj kvs => simp [pyIntOf, sceneFieldBad]

theorem validateSceneItem_error_iff (i : Nat) (item : JValue) :
    (∃ e, validateSceneItem i item = .error e) ↔ itemBad item = true := by
  cases item with
  | null => simp [validateSceneItem, itemBad]
  | bool b => simp [validateSceneItem, itemBad]
  | int n => simp [validateSceneItem, itemBad]
  | str s => simp [validateSceneItem, itemBad]
  | list xs => simp [validateSceneItem, itemBad]
  | obj kvs =>
    simp only [validateSceneItem, itemBad]
    rw [bind_error_iff]
    constructor
    · rintro (he | ⟨t, ht, e, he⟩)
      · have : textBad (JValue.get kvs "text") = true := (textBad_iff _).mpr (Or.inl he)
        simp [this]
      · by_cases hte : t = ""
        · subst hte
          have : textBad (JValue.get kvs "text") = true := (textBad_iff _).mpr (Or.inr ht)
          simp [this]
        · rw [if_neg hte] at he
          rcases (bind_error_iff _ _).mp ⟨e, he⟩ with hv | ⟨a, ha, hsc⟩
          · have : visBad (JValue.get kvs "visual_description") = true :=
              (visStep_error_iff _).mp hv
            simp [this]
          · rw [bind_ok_error_iff] at hsc
            have : sceneFieldBad (JValue.get kvs "scene") = true :=
              (sceneStep_error_iff i _).mp hsc
            simp [this]
    · intro hbad
      cases hpt : pyOrEmptyStrip (JValue.get kvs "text") with
      | error e => exact Or.inl ⟨e, rfl⟩
      | ok t =>
        by_cases hte : t = ""
        · subst hte
          refine Or.inr ⟨"", rfl, ?_⟩
          rw [if_pos rfl]
          exact ⟨_, rfl⟩
        · have htb : textBad (JValue.get kvs "text") = false := by
            rw [Bool.eq_false_iff]
            intro hcon
            rcases (textBad_iff _).mp hcon with ⟨e, he⟩ | hok
            · rw [hpt] at he; exact absurd he (by simp)
            · rw [hpt] at hok
              injection hok with hh
              exact hte hh
          refine Or.inr ⟨t, rfl, ?_⟩
          rw [if_neg hte, bind_error_iff]
          cases hpv : pyOrEmptyStrip (JValue.get kvs "visual_description") with
          | error e => exact Or.inl ⟨e, rfl⟩
          | ok a =>
            have hvb : visBad (JValue.get kvs "visual_description") = false := by
              rw [Bool.eq_false_iff]
              intro hcon
              obtain ⟨e, he⟩ := (visStep_error_iff _).mpr hcon
              rw [hpv] at he; exact absurd he (by simp)
            refine Or.inr ⟨a, rfl, ?_⟩
            rw [bind_ok_error_iff]
            apply (sceneStep_error_iff i _).mpr
            simp only [htb, hvb, Bool.false_or] at hbad
            exact hbad

theorem validateSceneItem_ok (i : Nat) (item : JValue) (s : SceneSpec)
    (h : validateSceneItem i item = .ok s) :
    s.visual_description = expectedVis item s.text ∧ s.text ≠ "" := by
  cases item with
  | null => exact absurd h (by simp [validateSceneItem])
  | bool b => exact absurd h (by simp [validateSceneItem])
  | int n => exact absurd h (by simp [validateSceneItem])
  | str st => exact absurd h (by simp [validateSceneItem])
  | list xs => exact absurd h (by simp [validateSceneItem])
  | obj kvs =>
    simp only [validateSceneItem] at h
    cases hpt : pyOrEmptyStrip (JValue.get kvs "text") with
    | error e => rw [hpt] at h; exact absurd h (by simp [Bind.bind, Except.bind])
    | ok t =>
      rw [hpt] at h
      simp only [Bind.bind, Except.bind] at h
      by_cases hte : t = ""
      · rw [if_pos hte] at h; exact absurd h (by simp)
      · rw [if_neg hte] at h
        cases hpv : pyOrEmptyStrip (JValue.get kvs "visual_description") with
        | error e => rw [hpv] at h; exact absurd h (by simp [Bind.bind, Except.bind])
        | ok a =>
          rw [hpv] at h
          simp only [Bind.bind, Except.bind] at h
          cases hps : pyIntOf ((JValue.get kvs "scene").getD (JValue.int (i + 1))) with
          | error e => rw [hps] at h; exact absurd h (by simp)
          | ok n =>
            rw [hps] at h
            simp only [Except.ok.injEq] at h
            subst h
            refine ⟨?_, hte⟩
            simp only [expectedVis]
            rw [pyOrEmptyStrip_eq] at hpv
            cases hgd : (JValue.get kvs "visual_description").getD JValue.null with
            | str s2 =>
              rw [hgd] at hpv
              simp only [Except.ok.injEq] at hpv
              subst hpv
              rfl
            | null =>
              rw [hgd] at hpv
              simp only [JValue.truthy, Bool.false_eq_true, if_false,
                Except.ok.injEq] at hpv
              subst hpv
              simp
            | bool b =>
              rw [hgd] at hpv
              cases b
              · simp only [JValue.truthy, Bool.false_eq_true, if_false,
                  Except.ok.injEq] at hpv
                subst hpv
                simp
              · exact absurd hpv (by simp [JValue.truthy])
            | int n2 =>
              rw [hgd] at hpv
              by_cases hn : (JValue.int n2).truthy = true
              · simp [hn] at hpv
              · simp [hn] at hpv
                subst hpv
                simp
            | list xs =>
              rw [hgd] at hpv
              by_cases hn : (JValue.list xs).truthy = true
              · simp [hn] at hpv
              · simp [hn] at hpv
                subst hpv
                simp
            | obj kvs2 =>
              rw [hgd] at hpv
              by_cases hn : (JValue.obj kvs2).truthy = true
              · simp [hn] at hpv
              · simp [hn] at hpv
                subst hpv
                simp

theorem validateScenesGo_error_iff (items : List JValue) : ∀ i : Nat,
    (∃ e, validateScenesGo i items = .error e) ↔ items.any itemBad = true := by
  induction items with
  | nil => intro i; simp [validateScenesGo]
  | cons item rest ih =>
    intro i
    simp only [validateScenesGo, List.any_cons]
    rw [bind_error_iff]
    constructor
    · rintro (he | ⟨s, hs, he⟩)
      · have := (validateSceneItem_error_iff i item).mp he
        simp [this]
      · rw [bind_ok_error_iff] at he
        have := (ih (i + 1)).mp he
        simp [this]
    · intro hbad
      rcases Bool.or_eq_true_iff.mp hbad with hb | hb
      · obtain ⟨e, he⟩ := (validateSceneItem_error_iff i item).mpr hb
        exact Or.inl ⟨e, he⟩
      · cases hit : validateSceneItem i item with
        | error e => exact Or.inl ⟨e, rfl⟩
        | ok s =>
          refine Or.inr ⟨s, rfl, ?_⟩
          rw [bind_ok_error_iff]
          exact (ih (i + 1)).mpr hb

theorem validateScenesGo_ok (items : List JValue) : ∀ (i : Nat) (out : List SceneSpec),
    validateScenesGo i items = .ok out →
    out.length = items.length ∧
      ∀ (j : Nat) (item : JValue) (sc : SceneSpec),
        items[j]? = some item → out[j]? = some sc →
        sc.visual_description = expectedVis item sc.text ∧ sc.text ≠ "" := by
  induction items with
  | nil =>
    intro i out h
    simp only [validateScenesGo, Except.ok.injEq] at h
    subst h
    simp
  | cons item rest ih =>
    intro i out h
    simp only [validateScenesGo] at h
    cases hit : validateSceneItem i item with
    | error e => rw [hit] at h; exact absurd h (by simp [Bind.bind, Except.bind])
    | ok s =>
      rw [hit] at h
      simp only [Bind.bind, Except.bind] at h
      cases hgo : validateScenesGo (i + 1) rest with
      | error e => rw [hgo] at h; exact absurd h (by simp)
      | ok tail =>
        rw [hgo] at h
        simp only [Except.ok.injEq] at h
        subst h
        obtain ⟨hlen, hall⟩ := ih (i + 1) tail hgo
        constructor
        · simp [hlen]
        · intro j it sc hj hsc
          cases j with
          | zero =>
            simp only [List.getElem?_cons_zero, Option.some.injEq] at hj hsc
            subst hj; subst hsc
            exact validateSceneItem_ok i _ _ hit
          | succ j =>
            simp only [List.getElem?_cons_succ] at hj hsc
            exact hall j it sc hj hsc

/-- C3 (amended): `validate_scenes` rejects exactly the payloads that are not
a list, are empty, or contain an element that is not an object, whose `text`
does not hold a string stripping to non-empty (missing, falsy, truthy
non-string, or whitespace-only), whose `visual_description` is a truthy
non-string, or whose `scene` field is present but fails Python `int(...)`
conversion (the last three cases are what the frozen claim missed, see
`c3_counterexample`); and on every accepted payload each output scene carries
the provided stripped visual description when that is non-blank, else the
stripped narration text truncated to 500 characters. -/
theorem c3_validate_scenes (raw : JValue) :
    ((∃ e, validate_scenes raw = .error e) ↔ scenesRejected raw = true) ∧
    ∀ out, validate_scenes raw = .ok out →
      ∃ items, raw = JValue.list items ∧ out.length = items.length ∧
        ∀ (j : Nat) (item : JValue) (sc : SceneSpec),
          items[j]? = some item → out[j]? = some sc →
          sc.visual_description = expectedVis item sc.text ∧ sc.text ≠ "" := by
  constructor
  · cases raw with
    | list items =>
      simp only [validate_scenes, scenesRejected]
      by_cases hemp : items.isEmpty
      · simp [hemp]
      · simp only [hemp, Bool.false_or, if_neg hemp]
        exact validateScenesGo_error_iff items 0
    | null => simp [validate_scenes, scenesRejected]
    | bool b => simp [validate_scenes, scenesRejected]
    | int n => simp [validate_scenes, scenesRejected]
    | str s => simp [validate_scenes, scenesRejected]
    | obj kvs => simp [validate_scenes, scenesRejected]
  · intro out h
    cases raw with
    | list items =>
      simp only [validate_scenes] at h
      by_cases hemp : items.isEmpty
      · rw [if_pos hemp] at h; exact absurd h (by simp)
      · rw [if_neg hemp] at h
        obtain ⟨hlen, hall⟩ := validateScenesGo_ok items 0 out h
        exact ⟨items, rfl, hlen, hall⟩
    | null => exact absurd h (by simp [validate_scenes])
    | bool b => exact absurd h (by simp [validate_scenes])
    | int n => exact absurd h (by simp [validate_scenes])
    | str s => exact absurd h (by simp [validate_scenes])
    | obj kvs => exact absurd h (by simp [validate_scenes])

/-- C3 counterexample to the frozen claim: this payload is a non-empty list
whose single element is an object with non-blank `text`, so the claim says it
is accepted — but `int(item.get("scene", i+1))` raises `ValueError` on the
non-numeric `scene` field. -/
theorem c3_counterexample :
    validate_scenes (JValue.list
        [JValue.obj [("text", JValue.str "hello"), ("scene", JValue.str "abc")]])
      = .error (.valueError "invalid literal for int() with base 10: abc") ∧
    pyStrip "hello" ≠ "" := by
  constructor
  · decide
  · decide

theorem c3_witness :
    (∃ e, validate_scenes (JValue.int 3) = .error e) ∧
    validate_scenes (JValue.list [JValue.obj [("text", JValue.str " hi ")]])
        = .ok [⟨1, "hi", "hi"⟩] ∧
    ("hi" : String) = expectedVis (JValue.obj [("text", JValue.str " hi ")]) "hi" := by
  refine ⟨(c3_validate_scenes (JValue.int 3)).1.mpr (by decide), by decide, ?_⟩
  obtain ⟨items, hit, hlen, hall⟩ :=
    (c3_validate_scenes (JValue.list [JValue.obj [("text", JValue.str " hi ")]])).2
      [⟨1, "hi", "hi"⟩] (by decide)
  injection hit with hit2
  subst hit2
  have := hall 0 (JValue.obj [("text", JValue.str " hi ")]) ⟨1, "hi", "hi"⟩ rfl rfl
  exact this.1

theorem validate_scenes_ok_length (raw : JValue) (vs : List SceneSpec)
    (h : validate_scenes raw = .ok vs) : 0 < vs.length := by
  cases raw with
  | list items =>
    simp only [validate_scenes] at h
    by_cases hemp : items.isEmpty
    · rw [if_pos hemp] at h; exact absurd h (by simp)
    · rw [if_neg hemp] at h
      obtain ⟨hlen, -⟩ := validateScenesGo_ok items 0 vs h
      rw [hlen]
      cases items with
      | nil => simp at hemp
      | cons a l => simp
  | null => exact absurd h (by simp [validate_scenes])
  | bool b => exact absurd h (by simp [validate_scenes])
  | int n => exact absurd h (by simp [validate_scenes])
  | str s => exact absurd h (by simp [validate_scenes])
  | obj kvs => exact absurd h (by simp [validate_scenes])

/-- C7 (amended): scene-mode synthesis returns between 1 and `num_scenes_max`
scenes — the validator rejects empty lists and an over-long response is
truncated to the maximum rather than rejected — but the configured minimum is
only requested in the provider prompt, never enforced on the response (see
`c7_counterexample`). -/
theorem c7_scene_count (data : JValue) (nmax : Nat) (scenes : List SceneSpec)
    (hmax : 0 < nmax) (h : generate_script_scenes data nmax = .ok scenes) :
    1 ≤ scenes.length ∧ scenes.length ≤ nmax ∧
      ∃ vs, validate_scenes data = .ok vs ∧
        scenes = if vs.length > nmax then vs.take nmax else vs := by
  unfold generate_script_scenes at h
  cases hv : validate_scenes data with
  | error e => rw [hv] at h; exact absurd h (by simp)
  | ok vs =>
    rw [hv] at h
    simp only [Except.ok.injEq] at h
    subst h
    have hpos := validate_scenes_ok_length data vs hv
    refine ⟨?_, ?_, vs, rfl, rfl⟩
    · by_cases hgt : vs.length > nmax
      · rw [if_pos hgt]; simp [List.length_take]; omega
      · rw [if_neg hgt]; omega
    · by_cases hgt : vs.length > nmax
      · rw [if_pos hgt]; simp [List.length_take]
      · rw [if_neg hgt]; omega

/-- C7 counterexample to the frozen claim: with the configured bounds
(min 5, max 12) a well-formed single-scene provider response is returned as a
1-element list — below the configured minimum, which the claim asserts is a
lower bound of the output length. -/
theorem c7_counterexample :
    generate_script_scenes (JValue.list [JValue.obj [("text", JValue.str "hi")]])
        video_scenes_max = .ok [⟨1, "hi", "hi"⟩] ∧
      ¬ video_scenes_min ≤ ([(⟨1, "hi", "hi"⟩ : SceneSpec)] : List SceneSpec).length := by
  exact ⟨by decide, by decide⟩

theorem c7_witness :
    1 ≤ ([⟨1, "a", "a"⟩, ⟨2, "b", "b"⟩] : List SceneSpec).length ∧
      ([⟨1, "a", "a"⟩, ⟨2, "b", "b"⟩] : List SceneSpec).length ≤ video_scenes_max := by
  obtain ⟨h1, h2, -⟩ := c7_scene_count
    (JValue.list [JValue.obj [("text", JValue.str "a")],
      JValue.obj [("text", JValue.str "b")]])
    video_scenes_max [⟨1, "a", "a"⟩, ⟨2, "b", "b"⟩]
    (by norm_num [video_scenes_max]) (by decide)
  exact ⟨h1, h2⟩

theorem validateSceneItem_scene_none (i : Nat) (kvs : List (String × JValue))
    (s : SceneSpec) (hnone : JValue.get kvs "scene" = none)
    (h : validateSceneItem i (JValue.obj kvs) = .ok s) : s.scene = (i : Int) + 1 := by
  simp only [validateSceneItem] at h
  cases hpt : pyOrEmptyStrip (JValue.get kvs "text") with
  | error e => rw [hpt] at h; exact absurd h (by simp [Bind.bind, Except.bind])
  | ok t =>
    rw [hpt] at h
    simp only [Bind.bind, Except.bind] at h
    by_cases hte : t = ""
    · rw [if_pos hte] at h; exact absurd h (by simp)
    · rw [if_neg hte] at h
      cases hpv : pyOrEmptyStrip (JValue.get kvs "visual_description") with
      | error e => rw [hpv] at h; exact absurd h (by simp [Bind.bind, Except.bind])
      | ok a =>
        rw [hpv] at h
        simp only [Bind.bind, Except.bind, hnone, Option.getD, pyIntOf,
          Except.ok.injEq] at h
        subst h
        simp

theorem validateScenesGo_scene_default (items : List JValue) :
    ∀ (i : Nat) (out : List SceneSpec),
      (∀ item ∈ items, ∃ kvs, item = JValue.obj kvs ∧ JValue.get kvs "scene" = none) →
      validateScenesGo i items = .ok out →
      ∀ (k : Nat) (sc : SceneSpec), out[k]? = some sc → sc.scene = (i : Int) + k + 1 := by
  induction items with
  | nil =>
    intro i out hfree h
    simp only [validateScenesGo, Except.ok.injEq] at h
    subst h
    intro k sc hk
    simp at hk
  | cons item rest ih =>
    intro i out hfree h
    simp only [validateScenesGo] at h
    cases hit : validateSceneItem i item with
    | error e => rw [hit] at h; exact absurd h (by simp [Bind.bind, Except.bind])
    | ok s =>
      rw [hit] at h
      simp only [Bind.bind, Except.bind] at h
      cases hgo : validateScenesGo (i + 1) rest with
      | error e => rw [hgo] at h; exact absurd h (by simp)
      | ok tail =>
        rw [hgo] at h
        simp only [Except.ok.injEq] at h
        subst h
        intro k sc hk
        cases k with
        | zero =>
          simp only [List.getElem?_cons_zero, Option.some.injEq] at hk
          subst hk
          obtain ⟨kvs, hobj, hnone⟩ := hfree item (by simp)
          subst hobj
          have := validateSceneItem_scene_none i kvs _ hnone hit
          rw [this]
          push_cast
          ring
        | succ k =>
          simp only [List.getElem?_cons_succ] at hk
          have := ih (i + 1) tail
            (fun it hmem => hfree it (by simp [hmem])) hgo k sc hk
          rw [this]
          push_cast
          ring

/-- C9 (amended): the stored `scene` indices are whatever integers the
provider supplied (passed through `int(...)` unvalidated — neither uniqueness
nor contiguity is enforced, see `c9_counterexample`); they default to the
1-based position only when the provider omits the `scene` field, in which case
the persisted Script has contiguous indices 1..n. -/
theorem c9_scene_indices (ep : EpisodeS) (items : List JValue)
    (ptext : Except PyErr String) (nmax sid : Nat)
    (scr : ScriptRow) (scenes : List SceneSpec)
    (hfree : ∀ item ∈ items, ∃ kvs, item = JValue.obj kvs ∧
      JValue.get kvs "scene" = none)
    (hrun : (generateScript (some ep) true true (JValue.list items)
      ptext nmax sid).script = some scr)
    (hsc : scr.scenes = some scenes) :
    ∀ (k : Nat) (sc : SceneSpec), scenes[k]? = some sc → sc.scene = (k : Int) + 1 := by
  simp only [generateScript, scriptProviderStep, if_true] at hrun
  cases hg : generate_script_scenes (JValue.list items) nmax with
  | error e => rw [hg] at hrun; exact absurd hrun (by simp)
  | ok vs =>
    rw [hg] at hrun
    simp only [Option.some.injEq] at hrun
    rw [← hrun] at hsc
    simp only [Option.some.injEq] at hsc
    subst hsc
    unfold generate_script_scenes at hg
    cases hv : validate_scenes (JValue.list items) with
    | error e => rw [hv] at hg; exact absurd hg (by simp)
    | ok vs0 =>
      rw [hv] at hg
      simp only [Except.ok.injEq] at hg
      subst hg
      have hval : ∀ (k : Nat) (sc : SceneSpec), vs0[k]? = some sc →
          sc.scene = (k : Int) + 1 := by
        intro k sc hk
        have hgo : validateScenesGo 0 items = .ok vs0 := by
          simp only [validate_scenes] at hv
          by_cases hemp : items.isEmpty
          · rw [if_pos hemp] at hv; exact absurd hv (by simp)
          · rw [if_neg hemp] at hv; exact hv
        have := validateScenesGo_scene_default items 0 vs0 hfree hgo k sc hk
        rw [this]
        push_cast
        ring
      intro k sc hk
      by_cases hgt : vs0.length > nmax
      · rw [if_pos hgt] at hk
        rw [List.getElem?_take] at hk
        by_cases hkn : k < nmax
        · rw [if_pos hkn] at hk
          exact hval k sc hk
        · rw [if_neg hkn] at hk
          exact absurd hk (by simp)
      · rw [if_neg hgt] at hk
        exact hval k sc hk

/-- C9 counterexample to the frozen claim: a well-formed single-scene payload
carrying `scene: 5` is persisted by the worker task with stored index 5, not
the contiguous-from-1 index the claim requires for the first stored scene. -/
theorem c9_counterexample :
    (generateScript (some ⟨"scheduled", none, none⟩) true true
        (JValue.list [JValue.obj [("text", JValue.str "a"), ("scene", JValue.int 5)]])
        (.ok "") 12 1).script
      = some ⟨"a", some [⟨5, "a", "a"⟩]⟩ ∧ (5 : Int) ≠ 0 + 1 := by
  exact ⟨by decide, by decide⟩

theorem c9_witness :
    (⟨2, "b", "b"⟩ : SceneSpec).scene = ((1 : Nat) : Int) + 1 := by
  refine c9_scene_indices ⟨"scheduled", none, none⟩
    [JValue.obj [("text", JValue.str "a")], JValue.obj [("text", JValue.str "b")]]
    (.ok "") 12 1 ⟨"a\n\nb", some [⟨1, "a", "a"⟩, ⟨2, "b", "b"⟩]⟩
    [⟨1, "a", "a"⟩, ⟨2, "b", "b"⟩]
    (by intro item hmem
        simp only [List.mem_cons, List.not_mem_nil, or_false] at hmem
        rcases hmem with rfl | rfl
        · exact ⟨_, rfl, rfl⟩
        · exact ⟨_, rfl, rfl⟩)
    (by decide) (by decide) 1 ⟨2, "b", "b"⟩ (by decide)

/-- C2: on a successful scene-mode run over an Episode carrying a stale error
payload, the worker task `generate_script` persists the Script, repoints
`script_id` and sets `ready_for_review` — but leaves `Episode.error` at its
stale value, contradicting the spec sentence "clears error"; the sibling
synchronous implementation `run_script_generation` of the same stage does set
`episode.error = None` on the identical input, showing the task omission is a
slip. (This state is reachable: the task records an error and re-raises on
failure, and the queue retries, so a retry that succeeds runs exactly on an
Episode with a non-null error.) -/
theorem c2_script_error_retention :
    (generateScript
        (some ⟨"failed", none, some ⟨"script_generation", "boom"⟩⟩) true true
        (JValue.list [JValue.obj [("text", JValue.str "a")]]) (.ok "") 12 7).episode
      = some ⟨"ready_for_review", some 7, some ⟨"script_generation", "boom"⟩⟩ ∧
    (runScriptGeneration
        (some ⟨"failed", none, some ⟨"script_generation", "boom"⟩⟩) true true
        (JValue.list [JValue.obj [("text", JValue.str "a")]]) (.ok "") 12 7).episode
      = some ⟨"ready_for_review", some 7, none⟩ := by
  exact ⟨by decide, by decide⟩

/-- C8 (amended): only the synchronous API endpoint enforces the
`scheduled`/`failed` precondition (rejecting with a 400 and not invoking the
service otherwise); the worker task `generate_script` applies no status check
and (re)starts generation — its first status commit is `generating` — from
whatever status the Episode currently has (see `c8_counterexample` for the
`ready_for_review` case, reachable via an ETA-delayed or redelivered queue
message). -/
theorem c8_generation_guard (ep : EpisodeS) (sf useScenes : Bool) (data : JValue)
    (ptext : Except PyErr String) (nmax sid : Nat) :
    (ep.status ≠ "scheduled" → ep.status ≠ "failed" →
      triggerGenerateScript (some ep) sf useScenes data ptext nmax sid = .error 400) ∧
    (generateScript (some ep) true useScenes data ptext nmax sid).statusWrites.head?
      = some "generating" := by
  constructor
  · intro h1 h2
    simp only [triggerGenerateScript]
    rw [if_neg]
    rintro (h | h)
    · exact h1 h
    · exact h2 h
  · simp only [generateScript, if_true]
    cases hp : scriptProviderStep useScenes data ptext nmax with
    | ok r => cases r; simp
    | error e => simp

/-- C8 counterexample to the frozen claim: the worker task, run on an Episode
in `ready_for_review` (neither `scheduled` nor `failed`), still begins work
and commits `generating` as its first status write. -/
theorem c8_counterexample :
    (generateScript (some ⟨"ready_for_review", some 3, none⟩) true true
        (JValue.list [JValue.obj [("text", JValue.str "a")]]) (.ok "") 12 9).statusWrites
      = ["generating", "ready_for_review"] ∧
    ("ready_for_review" ≠ "scheduled" ∧ "ready_for_review" ≠ "failed") := by
  exact ⟨by decide, by decide, by decide⟩

theorem c8_witness :
    triggerGenerateScript (some ⟨"posted", none, none⟩) true true
        (JValue.list [JValue.obj [("text", JValue.str "a")]]) (.ok "") 12 2
      = .error 400 ∧
    (generateScript (some ⟨"posted", none, none⟩) true true
        (JValue.list [JValue.obj [("text", JValue.str "a")]]) (.ok "") 12 2).statusWrites.head?
      = some "generating" := by
  obtain ⟨h1, h2⟩ := c8_generation_guard ⟨"posted", none, none⟩ true true
    (JValue.list [JValue.obj [("text", JValue.str "a")]]) (.ok "") 12 2
  exact ⟨h1 (by decide) (by decide), h2⟩

/-- Unconfigured storage settings (all env defaults empty). -/
def st0 : StorageSettings := ⟨"", "", "", "", ""⟩

/-- Adapter oracles that always succeed, for concrete evaluations. -/
def adOk : Adapters :=
  ⟨fun _ _ _ _ => .ok ⟨some "tid", "posted"⟩,
   fun _ _ _ => .ok ⟨some "iid", "posted"⟩,
   fun _ _ _ _ => .ok ⟨some "yid", "posted"⟩,
   fun _ _ _ => .ok ⟨some "fid", "posted"⟩⟩

/-- Once token decryption has succeeded, `publish_to_platform` cannot raise:
every remaining branch returns a triple. -/
theorem publish_to_platform_ok (fernet : String → Option String)
    (st : StorageSettings) (presign : String → String) (ad : Adapters)
    (platformRaw access_token : Option String) (assetUrl caption post_id tok : String)
    (hdec : decrypt_token fernet (access_token.getD "") = .ok tok) :
    ∃ r, publish_to_platform fernet st presign ad platformRaw access_token
      assetUrl caption post_id = .ok r := by
  simp only [publish_to_platform, hdec, Bind.bind, Except.bind]
  by_cases h1 : tok = ""
  · rw [if_pos h1]; exact ⟨_, rfl⟩
  · rw [if_neg h1]
    by_cases h2 : (if assetUrl ≠ "" then get_download_url st presign assetUrl else "") = ""
        ∨ pyStartsWith (if assetUrl ≠ "" then get_download_url st presign assetUrl else "")
            "https://storage.example.com" = true
    · rw [if_pos h2]; exact ⟨_, rfl⟩
    · rw [if_neg h2]
      cases hd : adapterDispatch ad (pyLower (platformRaw.getD "")) tok
          (if assetUrl ≠ "" then get_download_url st presign assetUrl else "")
          caption post_id with
      | none => exact ⟨_, rfl⟩
      | some r =>
        cases r with
        | ok out => exact ⟨_, rfl⟩
        | error e => exact ⟨_, rfl⟩

/-- Once token decryption has succeeded, the `post_to_platform` task run on an
existing Post completes without raising, whatever the other lookups hold. -/
theorem post_task_no_raise (fernet : String → Option String) (st : StorageSettings)
    (presign : String → String) (ad : Adapters) (plat acctTok : Option String)
    (post_id tok : String)
    (hdec : decrypt_token fernet (acctTok.getD "") = .ok tok) :
    ∀ (ep : Option EpisodeP) (aurl : Option String),
      (post_to_platform true ep aurl (some ⟨plat, acctTok⟩) fernet st presign ad
        post_id).raised = none := by
  intro ep aurl
  cases ep with
  | none => simp [post_to_platform]
  | some e =>
    cases hv : e.video_asset_id with
    | none => simp [post_to_platform, hv]
    | some aid =>
      cases aurl with
      | none => simp [post_to_platform, hv]
      | some url =>
        obtain ⟨r, hr⟩ := publish_to_platform_ok fernet st presign ad plat acctTok
          url (e.scriptText.getD "") post_id tok hdec
        simp only [post_to_platform, hv, hr]
        obtain ⟨st1, pid1, err1⟩ := r
        by_cases hst : st1 = "posted"
        · simp [hst]
        · simp [hst]

/-- C5 (amended): provided the account token decrypts to a non-empty string
(a missing token fails first with a token message instead, see
`c5_counterexample`), an empty or placeholder resolved video URL makes the
publish function return `failed` with the video-unavailable message, and makes
the task move the Post `posting → failed` with that message — for EVERY
adapter oracle, i.e. without any platform adapter being consulted. -/
theorem c5_placeholder_url_fails (fernet : String → Option String)
    (st : StorageSettings) (presign : String → String) (plat acctTok : Option String)
    (assetUrl post_id tok : String)
    (hdec : decrypt_token fernet (acctTok.getD "") = .ok tok)
    (htok : tok ≠ "")
    (hurl : (if assetUrl ≠ "" then get_download_url st presign assetUrl else "") = ""
      ∨ pyStartsWith (if assetUrl ≠ "" then get_download_url st presign assetUrl else "")
          "https://storage.example.com" = true) :
    (∀ (ad : Adapters) (caption : String),
      publish_to_platform fernet st presign ad plat acctTok assetUrl caption post_id
        = .ok ("failed", none,
            some "Video URL not available (S3 not configured or placeholder)")) ∧
    (∀ (ad : Adapters) (ep : EpisodeP) (aid : Nat), ep.video_asset_id = some aid →
      post_to_platform true (some ep) (some assetUrl) (some ⟨plat, acctTok⟩)
          fernet st presign ad post_id
        = ⟨["posting", "failed"],
           some "Video URL not available (S3 not configured or placeholder)",
           none, none⟩) := by
  have hpub : ∀ (ad : Adapters) (caption : String),
      publish_to_platform fernet st presign ad plat acctTok assetUrl caption post_id
        = .ok ("failed", none,
            some "Video URL not available (S3 not configured or placeholder)") := by
    intro ad caption
    simp only [publish_to_platform, hdec, Bind.bind, Except.bind]
    rw [if_neg htok, if_pos hurl]
    rfl
  refine ⟨hpub, ?_⟩
  intro ad ep aid hv
  simp only [post_to_platform, hv, hpub ad (ep.scriptText.getD "")]
  rfl

/-- C5 counterexample to the frozen claim: a Post whose account has no stored
token and whose video URL is the unconfigured-storage placeholder fails with
the token message, not a message indicating the video is unavailable — the
token check precedes the URL check. -/
theorem c5_counterexample :
    post_to_platform true (some ⟨some 1, none⟩)
        (some "https://storage.example.com/v.mp4") (some ⟨some "tiktok", none⟩)
        (fun _ => none) st0 (fun k => k) adOk "p1"
      = ⟨["posting", "failed"], some "Missing or invalid access token", none, none⟩ ∧
    pyStartsWith (get_download_url st0 (fun k => k) "https://storage.example.com/v.mp4")
        "https://storage.example.com" = true ∧
    "Missing or invalid access token"
      ≠ "Video URL not available (S3 not configured or placeholder)" := by
  exact ⟨by decide, by decide, by decide⟩

theorem c5_witness :
    publish_to_platform (fun s => some s) st0 (fun k => k) adOk (some "tiktok")
        (some "cipher") "https://storage.example.com/v.mp4" "" "p1"
      = .ok ("failed", none,
          some "Video URL not available (S3 not configured or placeholder)") ∧
    post_to_platform true (some ⟨some 1, none⟩)
        (some "https://storage.example.com/v.mp4")
        (some ⟨some "tiktok", some "cipher"⟩) (fun s => some s) st0 (fun k => k)
        adOk "p1"
      = ⟨["posting", "failed"],
         some "Video URL not available (S3 not configured or placeholder)",
         none, none⟩ := by
  obtain ⟨h1, h2⟩ := c5_placeholder_url_fails (fun s => some s) st0 (fun k => k)
    (some "tiktok") (some "cipher") "https://storage.example.com/v.mp4" "p1" "cipher"
    (by decide) (by decide) (Or.inr (by decide))
  exact ⟨h1 adOk "", h2 adOk ⟨some 1, none⟩ 1 rfl⟩

/-- C10 (amended): once the token decrypts (an undecryptable non-empty token
makes `decrypt_token` — which runs BEFORE the `try` block — raise
`InvalidToken` out of the function and out of the task, see
`c10_counterexample`), `publish_to_platform` always returns a triple: its
status is `posted`/`failed` except that an adapter success reports the
adapter's own status field (always `"posted"` in the four source adapters); a
dispatched adapter exception `e` is converted to
`("failed", none, str(e))`; and the task completes without raising for any
episode/asset lookup outcome. -/
theorem c10_publish_no_raise (fernet : String → Option String)
    (st : StorageSettings) (presign : String → String) (plat acctTok : Option String)
    (assetUrl caption post_id tok : String)
    (hdec : decrypt_token fernet (acctTok.getD "") = .ok tok) :
    ∀ ad : Adapters,
      (∃ r : String × Option String × Option String,
        publish_to_platform fernet st presign ad plat acctTok assetUrl caption post_id
          = .ok r ∧
        (r.1 = "posted" ∨ r.1 = "failed" ∨
          ∃ out, adapterDispatch ad (pyLower (plat.getD "")) tok
              (if assetUrl ≠ "" then get_download_url st presign assetUrl else "")
              caption post_id = some (.ok out) ∧ r.1 = out.status) ∧
        (∀ e, tok ≠ "" →
          ¬((if assetUrl ≠ "" then get_download_url st presign assetUrl else "") = ""
            ∨ pyStartsWith
                (if assetUrl ≠ "" then get_download_url st presign assetUrl else "")
                "https://storage.example.com" = true) →
          adapterDispatch ad (pyLower (plat.getD "")) tok
              (if assetUrl ≠ "" then get_download_url st presign assetUrl else "")
              caption post_id = some (.error e) →
          r = ("failed", none, some e.message))) ∧
      ∀ (ep : Option EpisodeP) (aurl : Option String),
        (post_to_platform true ep aurl (some ⟨plat, acctTok⟩) fernet st presign ad
          post_id).raised = none := by
  intro ad
  refine ⟨?_, post_task_no_raise fernet st presign ad plat acctTok post_id tok hdec⟩
  simp only [publish_to_platform, hdec, Bind.bind, Except.bind]
  by_cases h1 : tok = ""
  · rw [if_pos h1]
    refine ⟨_, rfl, Or.inr (Or.inl rfl), ?_⟩
    intro e htok _ _
    exact absurd h1 htok
  · rw [if_neg h1]
    by_cases h2 : (if assetUrl ≠ "" then get_download_url st presign assetUrl else "") = ""
        ∨ pyStartsWith (if assetUrl ≠ "" then get_download_url st presign assetUrl else "")
            "https://storage.example.com" = true
    · rw [if_pos h2]
      refine ⟨_, rfl, Or.inr (Or.inl rfl), ?_⟩
      intro e _ hnurl _
      exact absurd h2 hnurl
    · rw [if_neg h2]
      cases hd : adapterDispatch ad (pyLower (plat.getD "")) tok
          (if assetUrl ≠ "" then get_download_url st presign assetUrl else "")
          caption post_id with
      | none =>
        refine ⟨_, rfl, Or.inr (Or.inl rfl), ?_⟩
        intro e _ _ hcon
        exact absurd hcon (by simp)
      | some r =>
        cases r with
        | ok out =>
          refine ⟨_, rfl, Or.inr (Or.inr ⟨out, rfl, rfl⟩), ?_⟩
          intro e _ _ hcon
          exact absurd hcon (by simp)
        | error e0 =>
          refine ⟨_, rfl, Or.inr (Or.inl rfl), ?_⟩
          intro e _ _ hcon
          simp only [Option.some.injEq] at hcon
          cases hcon
          rfl

/-- C10 counterexample to the implicit claim: a non-empty undecryptable token
makes `publish_to_platform` raise `InvalidToken` (the decryption runs before
the `try` block), and the task — which does not wrap the call — propagates it,
so the queue retry policy IS triggered; the Post is left in `posting`. -/
theorem c10_counterexample :
    publish_to_platform (fun _ => none) st0 (fun k => k) adOk (some "tiktok")
        (some "garbage") "https://cdn.example.net/v.mp4" "" "p1"
      = .error .invalidToken ∧
    post_to_platform true (some ⟨some 1, none⟩) (some "https://cdn.example.net/v.mp4")
        (some ⟨some "tiktok", some "garbage"⟩) (fun _ => none) st0 (fun k => k)
        adOk "p1"
      = ⟨["posting"], none, none, some .invalidToken⟩ := by
  exact ⟨by decide, by decide⟩

theorem c10_witness :
    (∃ r : String × Option String × Option String,
      publish_to_platform (fun s => some s) st0 (fun k => k) adOk (some "tiktok")
        (some "cipher") "https://cdn.example.net/v.mp4" "" "p1" = .ok r) ∧
    (post_to_platform true (some ⟨some 1, none⟩)
        (some "https://cdn.example.net/v.mp4")
        (some ⟨some "tiktok", some "cipher"⟩) (fun s => some s) st0 (fun k => k)
        adOk "p1").raised = none := by
  obtain ⟨⟨r, hr, -, -⟩, htask⟩ := c10_publish_no_raise (fun s => some s) st0
    (fun k => k) (some "tiktok") (some "cipher") "https://cdn.example.net/v.mp4"
    "" "p1" "cipher" (by decide) adOk
  exact ⟨⟨r, hr⟩, htask (some ⟨some 1, none⟩) (some "https://cdn.example.net/v.mp4")⟩

/-- C4: in every reachable state of the modelled system, any step that takes a
Post out of `pending` happens at a moment when the Episode it references has a
non-null final video asset — Posts are only created by `publish_now` behind
the `video_asset_id` guard, and `video_asset_id`, once set by the render
stage, is never cleared. -/
theorem c4_post_leaves_pending_requires_video {s s2 : Sys}
    (hreach : Reachable s) (hstep : Step s s2) (pid : Nat) (p p2 : PoState)
    (hp : s.posts pid = some p) (hpend : p.status = "pending")
    (hp2 : s2.posts pid = some p2) (hleft : p2.status ≠ "pending") :
    ∃ e aid, s.episodes p.episode_id = some e ∧ e.video_asset_id = some aid := by
  exact reachable_postsHaveVideo hreach pid p hp

theorem c4_witness :
    ∃ e aid,
      (⟨tupdate (tupdate (fun _ => none) 0 (some ⟨none, none⟩)) 0
          (some ⟨some 5, some "u"⟩),
        tupdate (fun _ => none) 0 (some ⟨0, "pending"⟩)⟩ : Sys).episodes 0
        = some e ∧ e.video_asset_id = some aid := by
  have h0 : Reachable (⟨fun _ => none, fun _ => none⟩ : Sys) := .init
  have h1 : Reachable (⟨tupdate (fun _ => none) 0 (some ⟨none, none⟩),
      fun _ => none⟩ : Sys) :=
    .step h0 (.createEpisode _ 0 rfl)
  have h2 : Reachable (⟨tupdate (tupdate (fun _ => none) 0 (some ⟨none, none⟩)) 0
      (some ⟨some 5, some "u"⟩), fun _ => none⟩ : Sys) :=
    .step h1 (.renderDone _ 0 5 "u" ⟨none, none⟩ rfl)
  have h3 : Reachable (⟨tupdate (tupdate (fun _ => none) 0 (some ⟨none, none⟩)) 0
      (some ⟨some 5, some "u"⟩),
      tupdate (fun _ => none) 0 (some ⟨0, "pending"⟩)⟩ : Sys) :=
    .step h2 (.publishNow _ 0 0 5 "u" ⟨some 5, some "u"⟩ rfl rfl rfl rfl)
  have hstep : Step
      (⟨tupdate (tupdate (fun _ => none) 0 (some ⟨none, none⟩)) 0
          (some ⟨some 5, some "u"⟩),
        tupdate (fun _ => none) 0 (some ⟨0, "pending"⟩)⟩ : Sys)
      (⟨tupdate (tupdate (fun _ => none) 0 (some ⟨none, none⟩)) 0
          (some ⟨some 5, some "u"⟩),
        tupdate (tupdate (fun _ => none) 0 (some ⟨0, "pending"⟩)) 0
          (some ⟨0, "posting"⟩)⟩ : Sys) :=
    .postRunStart _ 0 ⟨0, "pending"⟩ rfl
  exact c4_post_leaves_pending_requires_video h3 hstep 0 ⟨0, "pending"⟩
    ⟨0, "posting"⟩ rfl rfl rfl (by decide)
